import Mathlib

/-! # rss-creator: the authentication subsystem

A shallow embedding of `controllers/auth.go` together with the parts of
`utils/http.go`, `storage/user.go`, `storage/db.go` and `models/user.go` it calls.

Conventions of the embedding:

* A handler `func(w http.ResponseWriter, r *http.Request)` is a function
  `Request → World → Outcome`.  The `World` carries the response writer, the
  `Users` table behind `storage.DB` and a chronological trace of the observable
  effects (log lines, store calls, response writes).
* A Go run-time panic (here: a nil pointer dereference) is the `panic` outcome.
* The packages that are not part of the repository (`jwt-go`, `bcrypt`) are the
  fields of `Env`; `Env.Lawful` states the properties of `jwt-go` that the results
  rely on, and `toyEnv` is an executable instance satisfying them.
* Times are natural numbers of nanoseconds since the Unix epoch.
-/

namespace RssCreator

/-! ## models/user.go -/

/-- The Go struct `models.User`. -/
structure User where
  Username : String
  Password : String
  Email : String
  InvalidatedTokens : Bool
  deriving DecidableEq, Repr

/-! ## net/http constants and the response writer -/

abbrev StatusOK : Nat := 200
abbrev StatusBadRequest : Nat := 400
abbrev StatusUnauthorized : Nat := 401
abbrev StatusNotFound : Nat := 404
abbrev StatusInternalServerError : Nat := 500

/-- The Go struct `tokens` of `controllers/auth.go`; `RefreshToken` is `omitempty`. -/
structure tokens where
  RefreshToken : String := ""
  AccessToken : String
  deriving DecidableEq, Repr

/-- The Go struct `httpError` of `utils/http.go`. -/
structure httpError where
  Code : Nat
  Message : String
  deriving DecidableEq, Repr

/-- The Go struct `httpResponse` of `utils/http.go`.  The `Data` field is an
`interface{}` in the source; the authentication handlers only ever put a `tokens`
value there. -/
structure httpResponse where
  NextLink : String := ""
  Data : Option tokens := none
  Error : Option httpError := none
  deriving DecidableEq, Repr

/-- The state of an `http.ResponseWriter`: the header map, the status line once it
has been written, and the bodies passed to `Write` (kept as the envelope value that
was marshalled). -/
structure ResponseWriter where
  header : List (String × String) := []
  status : Option Nat := none
  body : List httpResponse := []
  deriving DecidableEq, Repr

/-! ## storage/db.go -/

/-- The error values a store call can return: the repository's `*NotFound`, or any
other error (those produced by `database/sql`). -/
inductive StoreError where
  | NotFound (resource : String)
  | Sql (text : String)
  deriving DecidableEq, Repr

/-- The methods `(*NotFound).Error` / `error.Error`. -/
def StoreError.Error : StoreError → String
  | .NotFound resource => resource ++ " not found"
  | .Sql text => text

/-- The function `storage.IsNotFound`. -/
def IsNotFound : StoreError → Bool
  | .NotFound _ => true
  | .Sql _ => false

/-- The calls of the `storage.DB` interface (the interface `user` of `storage/user.go`).
The authentication controller makes the calls `GetUser` and `UpdateTokenValidity`. -/
inductive StoreCall where
  | CreateUser (user : User)
  | GetUser (username : String)
  | UpdateUser (username : String) (user : User)
  | DeleteUser (username : String)
  | UpdateTokenValidity (username : String) (valid : Bool)
  deriving DecidableEq, Repr

/-- The calls of the interface that write to the `Users` table: all but `GetUser`. -/
def StoreCall.isMutation : StoreCall → Bool
  | .GetUser _ => false
  | .CreateUser _ => true
  | .UpdateUser _ _ => true
  | .DeleteUser _ => true
  | .UpdateTokenValidity _ _ => true

/-- The failures `database/sql` may report to `storage/user.go`; `none` means that the
corresponding driver call succeeds. -/
structure Faults where
  Query : Option String := none
  Scan : Option String := none
  Exec : Option String := none
  RowsAffected : Option String := none
  deriving DecidableEq, Repr

/-- The struct `sqlDb`: the rows of the `Users` table and the behaviour of the driver. -/
structure sqlDb where
  rows : List User := []
  faults : Faults := {}
  deriving DecidableEq, Repr

/-! ## effects -/

/-- One observable effect of a handler, in the order in which it happens. -/
inductive Event where
  | Log (line : String)
  | Call (c : StoreCall)
  | WriteHeader (status : Nat)
  | Write (body : httpResponse)
  deriving DecidableEq, Repr

/-- The store calls recorded in a trace, in order. -/
def storeCalls (t : List Event) : List StoreCall :=
  t.filterMap (fun e => match e with
    | .Call c => some c
    | _ => none)

/-- Everything a handler can read or change. `now` is `time.Now()` in nanoseconds. -/
structure World where
  w : ResponseWriter := {}
  db : sqlDb := {}
  now : Nat := 0
  trace : List Event := []
  deriving DecidableEq, Repr

/-- How a handler invocation ends: it returns, or it panics. -/
inductive Outcome where
  | done (s : World)
  | panic (s : World) (msg : String)
  deriving DecidableEq, Repr

/-- The world in which an outcome leaves the system. -/
def Outcome.world : Outcome → World
  | .done s => s
  | .panic s _ => s

/-- The value of a Go function call that may panic. -/
inductive Go (α : Type) where
  | ret (a : α)
  | panic (msg : String)
  deriving DecidableEq, Repr

/-- The request data the handlers read: the header map and `mux.Vars(r)`. -/
structure Request where
  Header : List (String × List String) := []
  Vars : List (String × String) := []
  deriving DecidableEq, Repr

/-- The Go type `handler` of `controllers/auth.go`. -/
abbrev handler := Request → World → Outcome

/-- The call `log.Printf`, with the formatted line. -/
def logPrintf (s : World) (line : String) : World :=
  { s with trace := s.trace ++ [Event.Log line] }

/-- The call `w.Header().Set(key, value)`. -/
def HeaderSet (s : World) (key value : String) : World :=
  { s with w := { s.w with header := (key, value) :: s.w.header.filter (fun kv => kv.1 != key) } }

/-- The call `w.WriteHeader(status)`: only the first status line is sent. -/
def WriteHeader (s : World) (status : Nat) : World :=
  { s with
    w := if s.w.status.isSome then s.w else { s.w with status := some status }
    trace := s.trace ++ [Event.WriteHeader status] }

/-- The call `w.Write(body)`: sends the status line `200` first if none was sent. -/
def Write (s : World) (body : httpResponse) : World :=
  { s with
    w := { s.w with
      status := if s.w.status.isSome then s.w.status else some StatusOK
      body := s.w.body ++ [body] }
    trace := s.trace ++ [Event.Write body] }

/-- The call `json.Marshal(resp)` on an `httpResponse`: the value holds only strings
and integers, for which `encoding/json` does not fail. The marshalled bytes are
represented by the value itself. -/
def Marshal (resp : httpResponse) : Except String httpResponse :=
  .ok resp

/-! ## utils/http.go -/

/-- The function `utils.SendError`. -/
def SendError (s : World) (message : String) (status : Nat) : World :=
  let s := HeaderSet s "Content-Type" "application/json"
  let resp : httpResponse := { Error := some { Code := status, Message := message } }
  match Marshal resp with
  | .ok respBody => Write (WriteHeader s status) respBody
  | .error err =>
    WriteHeader (logPrintf s ("error marshalling response body\n error\n " ++ err))
      StatusInternalServerError

/-- The function `utils.SendSuccess`. -/
def SendSuccess (s : World) (data : tokens) (status : Nat) : World :=
  let resp : httpResponse := { Data := some data }
  match Marshal resp with
  | .ok respBody => Write (WriteHeader s status) respBody
  | .error err =>
    SendError (logPrintf s ("error marshalling response body\n error\n " ++ err))
      "Could not convert response to JSON" StatusInternalServerError

/-! ## storage/user.go -/

/-- The method `(*sqlDb).GetUser`: the first row whose `username` equals the argument. -/
def GetUser (s : World) (username : String) : World × Except StoreError User :=
  let s := { s with trace := s.trace ++ [Event.Call (StoreCall.GetUser username)] }
  match s.db.faults.Query with
  | some err =>
    (logPrintf s ("error reading user " ++ username ++ " from database\n" ++ err),
      .error (.Sql err))
  | none =>
    match s.db.rows.find? (fun (u : User) => u.Username == username) with
    | some u =>
      match s.db.faults.Scan with
      | some err => (logPrintf s ("error parsing database rows\n" ++ err), .error (.Sql err))
      | none => (s, .ok u)
    | none => (s, .error (.NotFound ("user " ++ username)))

/-- The method `(*sqlDb).UpdateTokenValidity`: the statement
`UPDATE Users SET invalidatedtokens = ? WHERE username = ?` with `!valid`. -/
def UpdateTokenValidity (s : World) (username : String) (valid : Bool) :
    World × Option StoreError :=
  let s := { s with
    trace := s.trace ++ [Event.Call (StoreCall.UpdateTokenValidity username valid)] }
  match s.db.faults.Exec with
  | some err =>
    (logPrintf s ("error updating user " ++ username ++ " token validity\n " ++ err),
      some (.Sql err))
  | none =>
    let s := { s with db := { s.db with
      rows := s.db.rows.map (fun (u : User) =>
        if u.Username == username then { u with InvalidatedTokens := !valid } else u) } }
    match s.db.faults.RowsAffected with
    | some err =>
      (logPrintf s
        ("error getting number of rows affected by token validity update\n " ++ err),
        some (.Sql err))
    | none =>
      let rows := (s.db.rows.filter (fun (u : User) => u.Username == username)).length
      if rows == 0 then (s, some (.NotFound ("user " ++ username))) else (s, none)

/-! ## the packages outside the repository -/

/-- The claims `jwt.MapClaims` that the controller signs: the keys `exp`, `type` and
`username`. -/
structure MapClaims where
  exp : Nat
  type : String
  username : String
  deriving DecidableEq, Repr

/-- The Go struct `TokenClaims` (its field `Type` is written `Type'`, the name being
reserved); of the embedded `jwt.StandardClaims` only
`ExpiresAt` (JSON key `exp`) is ever present in a token of this service. -/
structure TokenClaims where
  Type' : String
  Username : String
  ExpiresAt : Nat
  deriving DecidableEq, Repr

/-- The fields of `jwt.Token` read by the controller. `Claims` is the result of the
type assertion `Claims.(*TokenClaims)`: `none` when the assertion fails. -/
structure Token where
  Claims : Option TokenClaims
  Valid : Bool
  deriving DecidableEq, Repr

/-- The functions of `github.com/dgrijalva/jwt-go` and `golang.org/x/crypto/bcrypt`
called by the controller.

* `SignedString secret claims` is
  `jwt.NewWithClaims(jwt.SigningMethodHS512, claims).SignedString([]byte(secret))`;
* `ParseWithClaims secret now token` is `jwt.ParseWithClaims(token, &TokenClaims{}, keyFunc)`
  with a `keyFunc` returning `[]byte(secret)`, run when the clock reads `now` seconds; it
  returns the pair `(*Token, error)`, each of which may be `nil`;
* `CompareHashAndPassword hash password` returns the error (`none` is `nil`). -/
structure Env where
  SignedString : String → MapClaims → Except String String
  ParseWithClaims : String → Nat → String → Option Token × Option String
  CompareHashAndPassword : String → String → Option String

/-! ## controllers/auth.go -/

abbrev AccessTokenType : String := "access"
abbrev RefreshTokenType : String := "refresh"

/-- The constant `time.Minute`, in nanoseconds. -/
abbrev Minute : Nat := 60 * 1000000000

/-- The constant `refreshExpiryTime`. -/
abbrev refreshExpiryTime : Nat := (Minute * 60 * 24) * 60

/-- The constant `accessExpiryTime`. -/
abbrev accessExpiryTime : Nat := Minute * 60 * 2

/-- The method `Time.Unix`: whole seconds since the epoch. -/
def Unix (t : Nat) : Nat := t / 1000000000

/-- The struct `authController`; the store behind its `db` field is `World.db`. -/
structure authController where
  jwtSecret : String
  deriving DecidableEq, Repr

/-- The function `strings.TrimPrefix`. -/
def TrimPrefix (s pre : String) : String :=
  if pre.data.isPrefixOf s.data then String.mk (s.data.drop pre.data.length) else s

/-- The lookup `mux.Vars(r)[key]`: the empty string when the key is absent. -/
def Request.Var (r : Request) (key : String) : String :=
  (r.Vars.lookup key).getD ""

/-- The method `r.Header.Get(key)`: the first value of the key, or the empty string. -/
def Request.HeaderGet (r : Request) (key : String) : String :=
  match r.Header.lookup key with
  | some (v :: _) => v
  | _ => ""

/-- The first lines of `GetAuthToken` and of the handler returned by `Wrapper`: the
bearer token read from the `Authorization` header. -/
def bearerToken (r : Request) : String :=
  match r.Header.lookup "Authorization" with
  | some (v :: _) => TrimPrefix v "Bearer "
  | _ => ""

/-- The message of a nil pointer dereference. -/
def nilDereference : String :=
  "runtime error: invalid memory address or nil pointer dereference"

/-- The method `(*authController).validateAccessToken`. The result is the returned
error (`none` is `nil`). The field access `refreshToken.Claims` dereferences the
pointer returned by the parser before `err` is looked at. -/
def validateAccessToken (E : Env) (a : authController) (now : Nat)
    (token : String) (username : String) (tokenType : String) : Go (Option String) :=
  match E.ParseWithClaims a.jwtSecret (Unix now) token with
  | (none, _) => .panic nilDereference
  | (some refreshToken, err) =>
    match refreshToken.Claims with
    | some claims =>
      if refreshToken.Valid && err.isNone then
        if claims.Type' != tokenType then
          .ret (some ("Invalid token provided, '" ++ tokenType ++
            "' token expected, got token with type '" ++ claims.Type' ++ "'"))
        else .ret none
      else .ret (some "Invalid token")
    | none => .ret (some "Invalid token")

/-- The method `(*authController).getAccessToken`. -/
def getAccessToken (E : Env) (a : authController) (now : Nat) (username : String) :
    Except String String :=
  E.SignedString a.jwtSecret
    { exp := Unix (now + accessExpiryTime), type := AccessTokenType, username := username }

/-- The last lines of `GetRefreshToken` (after `SendSuccess`): the update of the flag,
and the log line on its failure. -/
def finishIssue (s : World) (username : String) : World :=
  match UpdateTokenValidity s username true with
  | (s, some err) => logPrintf s ("could not set user token validity to valid\n" ++ err.Error)
  | (s, none) => s

/-- The method `(*authController).GetRefreshToken`. -/
def GetRefreshToken (E : Env) (a : authController) : handler := fun r s =>
  let username := r.Var "username"
  if username == "" then .done (SendError s "Username required" StatusBadRequest) else
  let password := r.HeaderGet "Password"
  if password == "" then .done (SendError s "Password header required" StatusBadRequest) else
  match GetUser s username with
  | (s, .error err) =>
    if IsNotFound err then
      .done (SendError s ("User " ++ username ++ " not found") StatusNotFound)
    else
      let s := logPrintf s
        ("could not get user " ++ username ++ " from the database\n" ++ err.Error)
      .done (SendError s "Error getting user from database" StatusInternalServerError)
  | (s, .ok user) =>
    if (E.CompareHashAndPassword user.Password password).isSome then
      .done (SendError s "Password incorrect" StatusUnauthorized)
    else
      match E.SignedString a.jwtSecret
        { exp := Unix (s.now + refreshExpiryTime), type := RefreshTokenType,
          username := username } with
      | .error err =>
        let s := logPrintf s ("could not generate refresh token\n" ++ err)
        .done (SendError s "Error generating token" StatusInternalServerError)
      | .ok refreshToken =>
        match getAccessToken E a s.now username with
        | .error err =>
          let s := logPrintf s ("could not generate access token\n" ++ err)
          .done (SendError s "Error generating token" StatusInternalServerError)
        | .ok accessToken =>
          let t : tokens := { RefreshToken := refreshToken, AccessToken := accessToken }
          let s := SendSuccess s t StatusOK
          .done (finishIssue s username)

/-- The method `(*authController).GetAuthToken`. -/
def GetAuthToken (E : Env) (a : authController) : handler := fun r s =>
  let bearerToken := bearerToken r
  if bearerToken == "" then
    .done (SendError s "Bearer token required" StatusUnauthorized) else
  let username := r.Var "username"
  if username == "" then .done (SendError s "Username required" StatusBadRequest) else
  match GetUser s username with
  | (s, .error err) =>
    if IsNotFound err then
      .done (SendError s ("User " ++ username ++ " not found") StatusNotFound)
    else
      let s := logPrintf s
        ("could not get user " ++ username ++ " from the database\n" ++ err.Error)
      .done (SendError s "Error getting user from database" StatusInternalServerError)
  | (s, .ok user) =>
    if user.InvalidatedTokens then
      .done (SendError s "Refresh token has been invalidated" StatusUnauthorized)
    else
      match validateAccessToken E a s.now bearerToken user.Username RefreshTokenType with
      | .panic msg => .panic s msg
      | .ret (some err) => .done (SendError s err StatusBadRequest)
      | .ret none =>
        match getAccessToken E a s.now username with
        | .error err =>
          let s := logPrintf s ("could not generate access token\n" ++ err)
          .done (SendError s "Error generating token" StatusInternalServerError)
        | .ok accessToken =>
          .done (SendSuccess s { AccessToken := accessToken } StatusOK)

/-- The method `(*authController).Wrapper`. -/
def Wrapper (E : Env) (a : authController) (tokenType : String) (h : handler) : handler :=
  fun r s =>
  let bearerToken := bearerToken r
  if bearerToken == "" then
    .done (SendError s "Bearer token required" StatusUnauthorized) else
  let username := r.Var "username"
  if username == "" then .done (SendError s "Username required" StatusBadRequest) else
  match validateAccessToken E a s.now bearerToken username tokenType with
  | .panic msg => .panic s msg
  | .ret (some err) => .done (SendError s err StatusBadRequest)
  | .ret none => h r s

/-! ## what the results assume of `jwt-go` -/

/-- The properties of `jwt-go` used below: a token signed with a secret parses, under
the same secret and no later than its expiry, to a valid token carrying the signed
claims; after its (non-zero) expiry it parses to a token object that is not valid,
together with an error. -/
structure Env.Lawful (E : Env) : Prop where
  roundTrip : ∀ (secret : String) (c : MapClaims) (tok : String) (now : Nat),
    E.SignedString secret c = .ok tok → now ≤ c.exp →
    E.ParseWithClaims secret now tok =
      (some ⟨some ⟨c.type, c.username, c.exp⟩, true⟩, none)
  expired : ∀ (secret : String) (c : MapClaims) (tok : String) (now : Nat),
    E.SignedString secret c = .ok tok → c.exp ≠ 0 → c.exp < now →
    ∃ t e, E.ParseWithClaims secret now tok = (some t, some e) ∧ t.Valid = false

/-! ## an executable instance of the packages

Tokens have the three dot-separated segments of a JWT. Numbers are written in unary
(`n` times `x`, then `-`), so that no segment contains a dot. -/

/-- Unary numeral. -/
def encNat (n : Nat) : List Char := List.replicate n 'x' ++ ['-']

/-- A sequence of unary numerals. -/
def encNats : List Nat → List Char
  | [] => []
  | n :: l => encNat n ++ encNats l

/-- Reads a sequence of unary numerals; `acc` counts the `x` read so far. -/
def decNats : List Char → Nat → Option (List Nat)
  | [], 0 => some []
  | [], _ + 1 => none
  | c :: t, acc =>
    if c = 'x' then decNats t (acc + 1)
    else if c = '-' then (decNats t 0).map (fun l => acc :: l)
    else none

/-- The numbers that stand for a set of claims. -/
def claimNats (c : MapClaims) : List Nat :=
  c.exp :: c.type.data.length ::
    (c.type.data.map Char.toNat ++ c.username.data.map Char.toNat)

/-- The claims segment of a toy token. -/
def toyPayload (c : MapClaims) : List Char := encNats (claimNats c)

/-- Decodes the claims segment of a toy token. -/
def toyClaims (p : List Char) : Option TokenClaims :=
  match decNats p 0 with
  | some (exp :: n :: rest) =>
    some ⟨String.mk ((rest.take n).map Char.ofNat),
      String.mk ((rest.drop n).map Char.ofNat), exp⟩
  | _ => none

/-- The header segment of a toy token. -/
def toyHeader : List Char := ['H', 'S', '5', '1', '2']

/-- The signature segment of a toy token. -/
def toySig (secret : String) (p : List Char) : List Char :=
  encNats (secret.data.map Char.toNat) ++ p

/-- The toy token signed for a set of claims. -/
def toySigned (secret : String) (c : MapClaims) : String :=
  String.mk (toyHeader ++ '.' :: (toyPayload c ++ '.' :: toySig secret (toyPayload c)))

/-- The dot-separated segments of a string, as `strings.Split(s, ".")`. -/
def splitDots : List Char → List (List Char)
  | [] => [[]]
  | c :: cs =>
    if c = '.' then [] :: splitDots cs
    else
      match splitDots cs with
      | seg :: rest => (c :: seg) :: rest
      | [] => [[c]]

/-- The toy parser. As in `jwt-go`, a string that does not have exactly three
segments yields no token object; every other failure yields a token object that is
not valid, and an error. -/
def toyParse (secret : String) (now : Nat) (tok : String) : Option Token × Option String :=
  match splitDots tok.data with
  | [h, p, sg] =>
    if h != toyHeader then (some ⟨none, false⟩, some "illegal header")
    else
      match toyClaims p with
      | none => (some ⟨some ⟨"", "", 0⟩, false⟩, some "illegal claims")
      | some c =>
        if sg != toySig secret p then (some ⟨some c, false⟩, some "signature is invalid")
        else if c.ExpiresAt != 0 && decide (c.ExpiresAt < now) then
          (some ⟨some c, false⟩, some "Token is expired")
        else (some ⟨some c, true⟩, none)
  | _ => (none, some "token contains an invalid number of segments")

/-- The toy password hash: the password behind a fixed marker. -/
def toyHash (password : String) : String := "$toy$" ++ password

/-- An executable instance of the external packages. -/
def toyEnv : Env where
  SignedString := fun secret c => .ok (toySigned secret c)
  ParseWithClaims := toyParse
  CompareHashAndPassword := fun hash password =>
    if hash == toyHash password then none
    else some "crypto/bcrypt: hashedPassword is not the hash of the given password"

/-! ## a small deployment, used to instantiate the results -/

/-- A controller with a fixed signing secret. -/
def demoController : authController := ⟨"secret"⟩

/-- A user whose password is `wonderland`. -/
def alice : User := ⟨"alice", toyHash "wonderland", "alice@example.org", false⟩

/-- A user whose password is `builder`. -/
def bob : User := ⟨"bob", toyHash "builder", "bob@example.org", false⟩

/-- A user whose tokens have been invalidated. -/
def carol : User := ⟨"carol", toyHash "singing", "carol@example.org", true⟩

/-- A world with three users and a fresh response writer. -/
def demoWorld : World :=
  { db := { rows := [alice, bob, carol] }, now := 1700000000 * 1000000000 }

/-- The world `demoWorld` with a driver whose `Exec` fails. -/
def lockedWorld : World :=
  { demoWorld with db := { demoWorld.db with faults := { Exec := some "database is locked" } } }

/-- The world `demoWorld` with a driver whose `Query` fails. -/
def downWorld : World :=
  { demoWorld with db := { demoWorld.db with faults := { Query := some "disk I/O error" } } }

/-- The request `GET /users/:username/authorize` with a `Password` header. -/
def authorizeRequest (username password : String) : Request :=
  { Header := [("Password", [password])], Vars := [("username", username)] }

/-- A request for `/users/{username}/...` with an `Authorization` header. -/
def bearerRequest (username authorization : String) : Request :=
  { Header := [("Authorization", [authorization])], Vars := [("username", username)] }

/-- An inner handler that answers `204` with an empty envelope. -/
def noContent : handler := fun _ s => .done (Write (WriteHeader s 204) {})

end RssCreator

/-! # Results -/

namespace RssCreator

/-! ## the toy instance is lawful -/

theorem decNats_encNat (n : Nat) (rest : List Char) (acc : Nat) :
    decNats (encNat n ++ rest) acc = (decNats rest 0).map (fun l => (acc + n) :: l) := by
  induction n generalizing acc with
  | zero => simp [encNat, decNats]
  | succ k ih =>
    have h := ih (acc + 1)
    simp only [encNat, List.replicate_succ, List.cons_append] at h ⊢
    simp only [decNats, if_true]
    rw [h]
    have e : acc + 1 + k = acc + (k + 1) := by omega
    rw [e]

theorem decNats_encNats (l : List Nat) : decNats (encNats l) 0 = some l := by
  induction l with
  | nil => simp [encNats, decNats]
  | cons n l ih => simp [encNats, decNats_encNat, ih]

theorem dot_not_mem_encNats (l : List Nat) : '.' ∉ encNats l := by
  induction l with
  | nil => simp [encNats]
  | cons n l ih =>
    simp only [encNats, encNat, List.mem_append, List.mem_replicate, List.mem_singleton]
    intro h
    rcases h with (⟨_, h⟩ | h) | h
    · exact absurd h (by decide)
    · exact absurd h (by decide)
    · exact ih h

theorem splitDots_of_not_mem (a : List Char) (h : '.' ∉ a) : splitDots a = [a] := by
  induction a with
  | nil => rfl
  | cons c cs ih =>
    have hc : c ≠ '.' := fun e => h (by simp [e])
    have hcs : '.' ∉ cs := fun e => h (List.mem_cons_of_mem _ e)
    simp [splitDots, hc, ih hcs]

theorem splitDots_append (a b : List Char) (h : '.' ∉ a) :
    splitDots (a ++ '.' :: b) = a :: splitDots b := by
  induction a with
  | nil => simp [splitDots]
  | cons c cs ih =>
    have hc : c ≠ '.' := fun e => h (by simp [e])
    have hcs : '.' ∉ cs := fun e => h (List.mem_cons_of_mem _ e)
    simp [splitDots, hc, ih hcs]

theorem toyClaims_toyPayload (c : MapClaims) :
    toyClaims (toyPayload c) = some ⟨c.type, c.username, c.exp⟩ := by
  have hf : (Char.ofNat ∘ Char.toNat) = id := by
    funext x
    simp
  simp [toyClaims, toyPayload, decNats_encNats, claimNats, List.take_append_eq_append_take,
    List.drop_append_eq_append_drop, hf]

theorem splitDots_toySigned (secret : String) (c : MapClaims) :
    splitDots (toySigned secret c).data =
      [toyHeader, toyPayload c, toySig secret (toyPayload c)] := by
  have h1 : '.' ∉ toyHeader := by decide
  have h2 : '.' ∉ toyPayload c := dot_not_mem_encNats _
  have h3 : '.' ∉ toySig secret (toyPayload c) := by
    simp only [toySig, List.mem_append, not_or]
    exact ⟨dot_not_mem_encNats _, h2⟩
  simp only [toySigned]
  rw [splitDots_append _ _ h1, splitDots_append _ _ h2, splitDots_of_not_mem _ h3]

theorem toyEnv_lawful : toyEnv.Lawful where
  roundTrip := by
    intro secret c tok now hs hle
    simp only [toyEnv, Except.ok.injEq] at hs
    subst hs
    have hn : ¬ (c.exp < now) := by omega
    simp [toyEnv, toyParse, splitDots_toySigned, toyClaims_toyPayload, hn]
  expired := by
    intro secret c tok now hs h0 hlt
    simp only [toyEnv, Except.ok.injEq] at hs
    subst hs
    refine ⟨⟨some ⟨c.type, c.username, c.exp⟩, false⟩, "Token is expired", ?_, rfl⟩
    simp [toyEnv, toyParse, splitDots_toySigned, toyClaims_toyPayload, h0, hlt]

/-! ## the response writer, the log and the store -/

@[simp] theorem logPrintf_w (s : World) (l : String) : (logPrintf s l).w = s.w := rfl
@[simp] theorem logPrintf_db (s : World) (l : String) : (logPrintf s l).db = s.db := rfl
@[simp] theorem logPrintf_now (s : World) (l : String) : (logPrintf s l).now = s.now := rfl
@[simp] theorem logPrintf_trace (s : World) (l : String) :
    (logPrintf s l).trace = s.trace ++ [Event.Log l] := rfl

@[simp] theorem SendError_db (s : World) (m : String) (c : Nat) :
    (SendError s m c).db = s.db := rfl
@[simp] theorem SendError_now (s : World) (m : String) (c : Nat) :
    (SendError s m c).now = s.now := rfl
@[simp] theorem SendError_trace (s : World) (m : String) (c : Nat) :
    (SendError s m c).trace = s.trace ++
      [Event.WriteHeader c, Event.Write { Error := some { Code := c, Message := m } }] := by
  simp [SendError, Marshal, Write, WriteHeader, HeaderSet]
@[simp] theorem SendError_body (s : World) (m : String) (c : Nat) :
    (SendError s m c).w.body = s.w.body ++ [{ Error := some { Code := c, Message := m } }] := by
  simp only [SendError, Marshal, Write, WriteHeader, HeaderSet]
  split <;> rfl
theorem SendError_status (s : World) (m : String) (c : Nat) (h : s.w.status = none) :
    (SendError s m c).w.status = some c := by
  simp [SendError, Marshal, Write, WriteHeader, HeaderSet, h]

@[simp] theorem SendSuccess_db (s : World) (t : tokens) (c : Nat) :
    (SendSuccess s t c).db = s.db := rfl
@[simp] theorem SendSuccess_now (s : World) (t : tokens) (c : Nat) :
    (SendSuccess s t c).now = s.now := rfl
@[simp] theorem SendSuccess_trace (s : World) (t : tokens) (c : Nat) :
    (SendSuccess s t c).trace = s.trace ++
      [Event.WriteHeader c, Event.Write { Data := some t }] := by
  simp [SendSuccess, Marshal, Write, WriteHeader]
@[simp] theorem SendSuccess_body (s : World) (t : tokens) (c : Nat) :
    (SendSuccess s t c).w.body = s.w.body ++ [{ Data := some t }] := by
  simp only [SendSuccess, Marshal, Write, WriteHeader]
  split <;> rfl
theorem SendSuccess_status (s : World) (t : tokens) (c : Nat) (h : s.w.status = none) :
    (SendSuccess s t c).w.status = some c := by
  simp [SendSuccess, Marshal, Write, WriteHeader, h]

/-- A successful `GetUser` changes nothing but the trace, to which it adds the call. -/
theorem GetUser_ok (s : World) (username : String) (user : User)
    (h : (GetUser s username).2 = .ok user) :
    GetUser s username =
      ({ s with trace := s.trace ++ [Event.Call (StoreCall.GetUser username)] }, .ok user) := by
  unfold GetUser at h ⊢
  simp only at h ⊢
  cases hq : s.db.faults.Query with
  | some e => simp [hq] at h
  | none =>
    cases hf : s.db.rows.find? (fun (u : User) => u.Username == username) with
    | none => simp [hq, hf] at h
    | some u =>
      cases hsc : s.db.faults.Scan with
      | some e => simp [hq, hf, hsc] at h
      | none =>
        simp only [hq, hf, hsc, Except.ok.injEq] at h
        simp [hq, hf, hsc, h]

/-- A failing `GetUser` leaves the response writer, the table and the clock alone, and
adds the call and log lines to the trace. -/
theorem GetUser_error (s : World) (username : String) (err : StoreError)
    (h : (GetUser s username).2 = .error err) :
    ∃ s1, GetUser s username = (s1, .error err) ∧ s1.w = s.w ∧ s1.db = s.db ∧
      s1.now = s.now ∧
      ∃ logs : List String, s1.trace =
        s.trace ++ Event.Call (StoreCall.GetUser username) :: logs.map Event.Log := by
  refine ⟨(GetUser s username).1, ?_, ?_⟩
  · rw [← h]
  · unfold GetUser
    simp only
    split
    · exact ⟨rfl, rfl, rfl, [_], by simp only [logPrintf, List.map, List.append_assoc, List.singleton_append]; rfl⟩
    · split
      · split
        · exact ⟨rfl, rfl, rfl, [_], by simp only [logPrintf, List.map, List.append_assoc, List.singleton_append]; rfl⟩
        · exact ⟨rfl, rfl, rfl, [], rfl⟩
      · exact ⟨rfl, rfl, rfl, [], rfl⟩

/-- The method `UpdateTokenValidity` does not touch the response writer. -/
@[simp] theorem UpdateTokenValidity_w (s : World) (username : String) (valid : Bool) :
    (UpdateTokenValidity s username valid).1.w = s.w := by
  unfold UpdateTokenValidity
  simp only
  split
  · rfl
  · split
    · rfl
    · split <;> rfl

/-- The trace of `UpdateTokenValidity`: the call, then log lines only. -/
theorem UpdateTokenValidity_trace (s : World) (username : String) (valid : Bool) :
    ∃ logs : List String, (UpdateTokenValidity s username valid).1.trace =
      s.trace ++ Event.Call (StoreCall.UpdateTokenValidity username valid) ::
        logs.map Event.Log := by
  unfold UpdateTokenValidity
  simp only
  split
  · exact ⟨[_], by simp only [logPrintf, List.map, List.append_assoc, List.singleton_append]; rfl⟩
  · split
    · exact ⟨[_], by
        simp only [logPrintf, List.map, List.append_assoc, List.singleton_append]; rfl⟩
    · split
      · exact ⟨[], rfl⟩
      · exact ⟨[], rfl⟩

/-- The table after `UpdateTokenValidity`: untouched when `Exec` fails, and otherwise
the rows of the user carry the flag `!valid`. -/
theorem UpdateTokenValidity_rows (s : World) (username : String) (valid : Bool) :
    (UpdateTokenValidity s username valid).1.db.faults = s.db.faults ∧
    (UpdateTokenValidity s username valid).1.db.rows =
      if s.db.faults.Exec.isSome then s.db.rows
      else s.db.rows.map (fun (u : User) =>
        if u.Username == username then { u with InvalidatedTokens := !valid } else u) := by
  unfold UpdateTokenValidity
  simp only
  cases he : s.db.faults.Exec with
  | some e => simp [logPrintf]
  | none =>
    cases hr : s.db.faults.RowsAffected with
    | some e => simp [logPrintf]
    | none =>
      simp only [Option.isSome_none, Bool.false_eq_true, if_false]
      split <;> simp

/-- The successful path of `GetRefreshToken`. -/
theorem GetRefreshToken_issue (E : Env) (a : authController) (r : Request) (s : World)
    (user : User) (refreshToken accessToken : String)
    (hu : r.Var "username" ≠ "") (hp : r.HeaderGet "Password" ≠ "")
    (hget : (GetUser s (r.Var "username")).2 = .ok user)
    (hpw : E.CompareHashAndPassword user.Password (r.HeaderGet "Password") = none)
    (hr : E.SignedString a.jwtSecret
      ⟨Unix (s.now + refreshExpiryTime), RefreshTokenType, r.Var "username"⟩ = .ok refreshToken)
    (ha : getAccessToken E a s.now (r.Var "username") = .ok accessToken) :
    GetRefreshToken E a r s = .done (finishIssue
      (SendSuccess
        { s with trace := s.trace ++ [Event.Call (StoreCall.GetUser (r.Var "username"))] }
        ⟨refreshToken, accessToken⟩ StatusOK) (r.Var "username")) := by
  simp only [GetRefreshToken, beq_iff_eq, hu, hp, if_false, GetUser_ok _ _ _ hget, hpw,
    Option.isSome_none, Bool.false_eq_true, hr, ha]

/-- A token that parses to a valid token of the expected type passes
`validateAccessToken`, whatever the `username` argument. -/
theorem validateAccessToken_ok (E : Env) (a : authController) (now : Nat)
    (token username tokenType : String) (c : TokenClaims)
    (hparse : E.ParseWithClaims a.jwtSecret (Unix now) token = (some ⟨some c, true⟩, none))
    (hk : c.Type' = tokenType) :
    validateAccessToken E a now token username tokenType = .ret none := by
  simp [validateAccessToken, hparse, hk]

/-- Trimming a prefix that is there. -/
theorem TrimPrefix_append (pre t : String) : TrimPrefix (pre ++ t) pre = t := by
  have h : pre.data.isPrefixOf (pre ++ t).data = true := by
    rw [String.data_append, List.isPrefixOf_iff_prefix]
    exact List.prefix_append _ _
  simp [TrimPrefix, h, String.data_append]

/-- The bearer token of a request whose `Authorization` header is `Bearer <token>`. -/
theorem bearerToken_bearerRequest (username tok : String) :
    bearerToken (bearerRequest username ("Bearer " ++ tok)) = tok := by
  have h : (bearerRequest username ("Bearer " ++ tok)).Header.lookup "Authorization" =
      some ["Bearer " ++ tok] := by
    simp [bearerRequest, List.lookup]
  simp only [bearerToken, h]
  exact TrimPrefix_append _ _

/-- The path variable of a request built by `bearerRequest`. -/
theorem Var_bearerRequest (username authorization : String) :
    (bearerRequest username authorization).Var "username" = username := by
  simp [bearerRequest, Request.Var, List.lookup]

/-- A toy token is not the empty string. -/
theorem toySigned_ne_empty (secret : String) (c : MapClaims) : toySigned secret c ≠ "" := by
  intro h
  have h2 := congrArg String.data h
  simp [toySigned, toyHeader] at h2

/-- What the toy parser says of a toy token that has not expired. -/
theorem toyParse_toySigned (secret : String) (c : MapClaims) (now : Nat) (h : now ≤ c.exp) :
    toyEnv.ParseWithClaims secret now (toySigned secret c) =
      (some ⟨some ⟨c.type, c.username, c.exp⟩, true⟩, none) :=
  toyEnv_lawful.roundTrip secret c _ now rfl h

/-- The successful path of `GetAuthToken`. The claims `c` of the bearer token enter
through their type only. -/
theorem GetAuthToken_exchange (E : Env) (a : authController) (r : Request) (s : World)
    (user : User) (c : TokenClaims) (accessToken : String)
    (ht : bearerToken r ≠ "") (hu : r.Var "username" ≠ "")
    (hget : (GetUser s (r.Var "username")).2 = .ok user)
    (hinv : user.InvalidatedTokens = false)
    (hparse : E.ParseWithClaims a.jwtSecret (Unix s.now) (bearerToken r) =
      (some ⟨some c, true⟩, none))
    (hk : c.Type' = RefreshTokenType)
    (ha : getAccessToken E a s.now (r.Var "username") = .ok accessToken) :
    GetAuthToken E a r s = .done (SendSuccess
      { s with trace := s.trace ++ [Event.Call (StoreCall.GetUser (r.Var "username"))] }
      ⟨"", accessToken⟩ StatusOK) := by
  have hv := validateAccessToken_ok E a s.now (bearerToken r) user.Username
    RefreshTokenType c hparse hk
  simp only [GetAuthToken, beq_iff_eq, ht, hu, if_false, GetUser_ok _ _ _ hget, hinv,
    Bool.false_eq_true, hv, ha]

/-! ## C1 -/

/-- C1: for a non-empty username and a non-empty password, when the store returns a
user record whose hash matches the password and both signings succeed,
`GetRefreshToken` responds 200 with the refresh and the access token; at any time up to
its expiry the refresh token parses, under the same secret, to valid claims of type
`refresh` with the request's username, the access token to valid claims of type
`access` with the same username, and `validateAccessToken` accepts the first with
expected kind `refresh` and the second with expected kind `access`. -/
theorem C1_issue_round_trip (E : Env) (a : authController) (r : Request) (s : World)
    (user : User) (refreshToken accessToken : String)
    (hE : E.Lawful) (hw : s.w.status = none) (hb : s.w.body = [])
    (hu : r.Var "username" ≠ "") (hp : r.HeaderGet "Password" ≠ "")
    (hget : (GetUser s (r.Var "username")).2 = .ok user)
    (hpw : E.CompareHashAndPassword user.Password (r.HeaderGet "Password") = none)
    (hr : E.SignedString a.jwtSecret
      ⟨Unix (s.now + refreshExpiryTime), RefreshTokenType, r.Var "username"⟩ = .ok refreshToken)
    (ha : getAccessToken E a s.now (r.Var "username") = .ok accessToken) :
    ∃ s', GetRefreshToken E a r s = .done s' ∧ s'.w.status = some StatusOK ∧
      s'.w.body = [{ Data := some ⟨refreshToken, accessToken⟩ }] ∧
      (∀ t, Unix t ≤ Unix (s.now + refreshExpiryTime) →
        E.ParseWithClaims a.jwtSecret (Unix t) refreshToken =
          (some ⟨some ⟨RefreshTokenType, r.Var "username",
            Unix (s.now + refreshExpiryTime)⟩, true⟩, none) ∧
        ∀ u, validateAccessToken E a t refreshToken u RefreshTokenType = .ret none) ∧
      (∀ t, Unix t ≤ Unix (s.now + accessExpiryTime) →
        E.ParseWithClaims a.jwtSecret (Unix t) accessToken =
          (some ⟨some ⟨AccessTokenType, r.Var "username",
            Unix (s.now + accessExpiryTime)⟩, true⟩, none) ∧
        ∀ u, validateAccessToken E a t accessToken u AccessTokenType = .ret none) := by
  refine ⟨_, GetRefreshToken_issue E a r s user refreshToken accessToken hu hp hget hpw hr ha,
    ?_, ?_, ?_, ?_⟩
  · have h1 : ∀ x : World, (finishIssue x (r.Var "username")).w = x.w := by
      intro x
      have := UpdateTokenValidity_w x (r.Var "username") true
      unfold finishIssue
      split <;> simp_all
    rw [h1]
    exact SendSuccess_status _ _ _ hw
  · have h1 : ∀ x : World, (finishIssue x (r.Var "username")).w = x.w := by
      intro x
      have := UpdateTokenValidity_w x (r.Var "username") true
      unfold finishIssue
      split <;> simp_all
    rw [h1]
    simp [hb]
  · intro t ht
    have hparse := hE.roundTrip _ _ _ (Unix t) hr ht
    exact ⟨hparse, fun u => validateAccessToken_ok E a t _ u _ _ hparse rfl⟩
  · intro t ht
    have hparse := hE.roundTrip _ _ _ (Unix t) ha ht
    exact ⟨hparse, fun u => validateAccessToken_ok E a t _ u _ _ hparse rfl⟩

/-- C1 at a concrete input: `alice` presenting her password. -/
theorem C1_issue_round_trip_witness :
    ∃ s', GetRefreshToken toyEnv demoController (authorizeRequest "alice" "wonderland")
        demoWorld = .done s' ∧
      s'.w.status = some 200 ∧
      validateAccessToken toyEnv demoController demoWorld.now
        (toySigned "secret" ⟨Unix (demoWorld.now + refreshExpiryTime), "refresh", "alice"⟩)
        "alice" "refresh" = .ret none ∧
      validateAccessToken toyEnv demoController demoWorld.now
        (toySigned "secret" ⟨Unix (demoWorld.now + accessExpiryTime), "access", "alice"⟩)
        "alice" "access" = .ret none :=
  let ⟨s', h1, h2, _, h4, h5⟩ :=
    C1_issue_round_trip toyEnv demoController (authorizeRequest "alice" "wonderland")
      demoWorld alice
      (toySigned "secret" ⟨Unix (demoWorld.now + refreshExpiryTime), "refresh", "alice"⟩)
      (toySigned "secret" ⟨Unix (demoWorld.now + accessExpiryTime), "access", "alice"⟩)
      toyEnv_lawful rfl rfl (by decide) (by decide) rfl (by decide) rfl rfl
  ⟨s', h1, h2, (h4 demoWorld.now (by decide)).2 "alice",
    (h5 demoWorld.now (by decide)).2 "alice"⟩

/-! ## C2 -/

/-- C2: for an existing user and a presented (non-empty) password that does not verify
against the stored hash, `GetRefreshToken` responds 401 `Password incorrect`, the
response carries no token, the table is unchanged, and the only store call made is
`GetUser`: `UpdateTokenValidity` is not called. -/
theorem C2_wrong_password (E : Env) (a : authController) (r : Request) (s : World)
    (user : User) (e : String)
    (hw : s.w.status = none) (hb : s.w.body = [])
    (hu : r.Var "username" ≠ "") (hp : r.HeaderGet "Password" ≠ "")
    (hget : (GetUser s (r.Var "username")).2 = .ok user)
    (hpw : E.CompareHashAndPassword user.Password (r.HeaderGet "Password") = some e) :
    ∃ s', GetRefreshToken E a r s = .done s' ∧ s'.w.status = some StatusUnauthorized ∧
      s'.w.body = [{ Error := some ⟨StatusUnauthorized, "Password incorrect"⟩ }] ∧
      s'.db = s.db ∧
      s'.trace = s.trace ++ [Event.Call (StoreCall.GetUser (r.Var "username")),
        Event.WriteHeader StatusUnauthorized,
        Event.Write { Error := some ⟨StatusUnauthorized, "Password incorrect"⟩ }] := by
  refine ⟨SendError
    { s with trace := s.trace ++ [Event.Call (StoreCall.GetUser (r.Var "username"))] }
    "Password incorrect" StatusUnauthorized, ?_, ?_, ?_, ?_, ?_⟩
  · simp [GetRefreshToken, hu, hp, GetUser_ok _ _ _ hget, hpw]
  · exact SendError_status _ _ _ hw
  · simp [hb]
  · simp
  · simp

/-- C2 at a concrete input: `alice` presenting the password of `bob`. -/
theorem C2_wrong_password_witness :
    ∃ s', GetRefreshToken toyEnv demoController (authorizeRequest "alice" "builder")
        demoWorld = .done s' ∧
      s'.w.status = some 401 ∧ s'.db = demoWorld.db :=
  let ⟨s', h1, h2, _, h4, _⟩ :=
    C2_wrong_password toyEnv demoController (authorizeRequest "alice" "builder") demoWorld
      alice "crypto/bcrypt: hashedPassword is not the hash of the given password"
      rfl rfl (by decide) (by decide) rfl (by decide)
  ⟨s', h1, h2, h4⟩

/-! ## C3 -/

/-- C3: for a request to `GetAuthToken` with a non-empty bearer token and a non-empty
username whose stored record has `InvalidatedTokens = true`, the response is 401
`Refresh token has been invalidated` and carries no access token, whatever the bearer
token is (the token is not even parsed). -/
theorem C3_invalidated_account (E : Env) (a : authController) (r : Request) (s : World)
    (user : User)
    (hw : s.w.status = none) (hb : s.w.body = [])
    (ht : bearerToken r ≠ "") (hu : r.Var "username" ≠ "")
    (hget : (GetUser s (r.Var "username")).2 = .ok user)
    (hinv : user.InvalidatedTokens = true) :
    ∃ s', GetAuthToken E a r s = .done s' ∧ s'.w.status = some StatusUnauthorized ∧
      s'.w.body =
        [{ Error := some ⟨StatusUnauthorized, "Refresh token has been invalidated"⟩ }] := by
  refine ⟨SendError
    { s with trace := s.trace ++ [Event.Call (StoreCall.GetUser (r.Var "username"))] }
    "Refresh token has been invalidated" StatusUnauthorized, ?_, ?_, ?_⟩
  · simp [GetAuthToken, ht, hu, GetUser_ok _ _ _ hget, hinv]
  · exact SendError_status _ _ _ hw
  · simp [hb]

/-- C3 at a concrete input: `carol`, whose tokens are invalidated, presenting a refresh
token that is correctly signed for her and has not expired. -/
theorem C3_invalidated_account_witness :
    toyEnv.ParseWithClaims "secret" (Unix demoWorld.now)
        (toySigned "secret" ⟨Unix (demoWorld.now + refreshExpiryTime), "refresh", "carol"⟩) =
      (some ⟨some ⟨"refresh", "carol", Unix (demoWorld.now + refreshExpiryTime)⟩, true⟩, none) ∧
    ∃ s', GetAuthToken toyEnv demoController
        (bearerRequest "carol" ("Bearer " ++
          toySigned "secret" ⟨Unix (demoWorld.now + refreshExpiryTime), "refresh", "carol"⟩))
        demoWorld = .done s' ∧
      s'.w.status = some 401 ∧
      s'.w.body = [{ Error := some ⟨401, "Refresh token has been invalidated"⟩ }] :=
  ⟨toyParse_toySigned _ _ _ (by decide),
    C3_invalidated_account toyEnv demoController _ demoWorld carol rfl rfl
      (by rw [bearerToken_bearerRequest]; exact toySigned_ne_empty _ _)
      (by rw [Var_bearerRequest]; decide)
      (by rw [Var_bearerRequest]; rfl) rfl⟩

/-! ## C4 -/

/-- A valid token of another type than the expected one is refused by
`validateAccessToken` with a message naming both types. -/
theorem validateAccessToken_wrong_kind (E : Env) (a : authController) (now : Nat)
    (token username tokenType : String) (c : TokenClaims)
    (hparse : E.ParseWithClaims a.jwtSecret (Unix now) token = (some ⟨some c, true⟩, none))
    (hk : c.Type' ≠ tokenType) :
    validateAccessToken E a now token username tokenType =
      .ret (some ("Invalid token provided, '" ++ tokenType ++
        "' token expected, got token with type '" ++ c.Type' ++ "'")) := by
  simp [validateAccessToken, hparse, hk]

/-- C4: let the bearer token be correctly signed and unexpired (it parses to a valid
token with claims `c`) and let its type differ from the expected kind `k`. Then
`validateAccessToken` returns the error naming `k` and the actual type; the handler
`Wrapper(k, h)` responds 400 without invoking `h` (the outcome is the same for every
`h`); and, for `k = refresh`, `GetAuthToken` never puts a token in its response, and
responds 400 with that error once the user has been found and is not invalidated. -/
theorem C4_kind_enforced (E : Env) (a : authController) (r : Request) (s : World)
    (c : TokenClaims) (k : String)
    (hw : s.w.status = none) (hb : s.w.body = [])
    (ht : bearerToken r ≠ "")
    (hparse : E.ParseWithClaims a.jwtSecret (Unix s.now) (bearerToken r) =
      (some ⟨some c, true⟩, none))
    (hk : c.Type' ≠ k) :
    (∀ u, validateAccessToken E a s.now (bearerToken r) u k =
      .ret (some ("Invalid token provided, '" ++ k ++
        "' token expected, got token with type '" ++ c.Type' ++ "'"))) ∧
    (∃ m, ∀ h, Wrapper E a k h r s = .done (SendError s m StatusBadRequest)) ∧
    (k = RefreshTokenType →
      (∀ b ∈ (GetAuthToken E a r s).world.w.body, b.Data = none) ∧
      (∀ user, r.Var "username" ≠ "" →
        (GetUser s (r.Var "username")).2 = .ok user → user.InvalidatedTokens = false →
        ∃ s', GetAuthToken E a r s = .done s' ∧ s'.w.status = some StatusBadRequest ∧
          s'.w.body = [{ Error := some ⟨StatusBadRequest,
            "Invalid token provided, '" ++ RefreshTokenType ++
              "' token expected, got token with type '" ++ c.Type' ++ "'"⟩ }])) := by
  have hv := fun u => validateAccessToken_wrong_kind E a s.now (bearerToken r) u k c hparse hk
  refine ⟨hv, ?_, ?_⟩
  · by_cases hu : r.Var "username" = ""
    · exact ⟨"Username required", fun h => by simp [Wrapper, ht, hu]⟩
    · exact ⟨"Invalid token provided, '" ++ k ++
          "' token expected, got token with type '" ++ c.Type' ++ "'",
        fun h => by simp only [Wrapper, beq_iff_eq, ht, hu, if_false, hv]⟩
  · intro hk2
    subst hk2
    have hpost : ∀ user, r.Var "username" ≠ "" →
        (GetUser s (r.Var "username")).2 = .ok user → user.InvalidatedTokens = false →
        GetAuthToken E a r s = .done (SendError
          { s with trace := s.trace ++ [Event.Call (StoreCall.GetUser (r.Var "username"))] }
          ("Invalid token provided, '" ++ RefreshTokenType ++
            "' token expected, got token with type '" ++ c.Type' ++ "'")
          StatusBadRequest) := by
      intro user hu hget hinv
      simp only [GetAuthToken, beq_iff_eq, ht, hu, if_false, GetUser_ok _ _ _ hget, hinv,
        Bool.false_eq_true, hv]
    refine ⟨?_, ?_⟩
    · by_cases hu : r.Var "username" = ""
      · simp [GetAuthToken, ht, hu, Outcome.world, hb]
      · cases hget : (GetUser s (r.Var "username")).2 with
        | error err =>
          obtain ⟨s1, h1, h2, -, -, -⟩ := GetUser_error _ _ _ hget
          simp only [GetAuthToken, beq_iff_eq, ht, hu, if_false, h1]
          split <;> simp [Outcome.world, h2, hb]
        | ok user =>
          cases hinv : user.InvalidatedTokens with
          | true =>
            simp [GetAuthToken, ht, hu, GetUser_ok _ _ _ hget, hinv, Outcome.world, hb]
          | false =>
            rw [hpost user hu hget hinv]
            simp [Outcome.world, hb]
    · intro user hu hget hinv
      refine ⟨_, hpost user hu hget hinv, SendError_status _ _ _ hw, ?_⟩
      simp [hb]

/-- C4 at concrete inputs: `GetAuthToken` presented with an access token of `alice`,
and `Wrapper(access, h)` presented with a refresh token of `alice`. -/
theorem C4_kind_enforced_witness :
    (∃ s', GetAuthToken toyEnv demoController
        (bearerRequest "alice" ("Bearer " ++
          toySigned "secret" ⟨Unix (demoWorld.now + accessExpiryTime), "access", "alice"⟩))
        demoWorld = .done s' ∧ s'.w.status = some 400 ∧
        s'.w.body = [{ Error := some ⟨400, "Invalid token provided, '" ++ "refresh" ++
          "' token expected, got token with type '" ++ "access" ++ "'"⟩ }]) ∧
    (∃ m, ∀ h, Wrapper toyEnv demoController "access" h
        (bearerRequest "alice" ("Bearer " ++
          toySigned "secret" ⟨Unix (demoWorld.now + refreshExpiryTime), "refresh", "alice"⟩))
        demoWorld = .done (SendError demoWorld m 400)) :=
  ⟨(C4_kind_enforced toyEnv demoController
      (bearerRequest "alice" ("Bearer " ++
        toySigned "secret" ⟨Unix (demoWorld.now + accessExpiryTime), "access", "alice"⟩))
      demoWorld ⟨"access", "alice", Unix (demoWorld.now + accessExpiryTime)⟩ "refresh"
      rfl rfl
      (by rw [bearerToken_bearerRequest]; exact toySigned_ne_empty _ _)
      (by rw [bearerToken_bearerRequest]; exact toyParse_toySigned _ _ _ (by decide))
      (by decide)).2.2 rfl |>.2 alice (by rw [Var_bearerRequest]; decide)
        (by rw [Var_bearerRequest]; rfl) rfl,
   (C4_kind_enforced toyEnv demoController
      (bearerRequest "alice" ("Bearer " ++
        toySigned "secret" ⟨Unix (demoWorld.now + refreshExpiryTime), "refresh", "alice"⟩))
      demoWorld ⟨"refresh", "alice", Unix (demoWorld.now + refreshExpiryTime)⟩ "access"
      rfl rfl
      (by rw [bearerToken_bearerRequest]; exact toySigned_ne_empty _ _)
      (by rw [bearerToken_bearerRequest]; exact toyParse_toySigned _ _ _ (by decide))
      (by decide)).2.1⟩

/-! ## C5 -/

/-- C5 (the code at the failing input): the refresh token that `GetRefreshToken` hands to
`alice`, presented to `GetAuthToken` on the path of `bob`, is answered with 200 and a
fresh access token for `bob`: the `username` argument of `validateAccessToken` is
never compared with the token's `username` claim. -/
theorem C5_refresh_token_of_another_user :
    (∃ s', GetRefreshToken toyEnv demoController (authorizeRequest "alice" "wonderland")
        demoWorld = .done s' ∧
      s'.w.body = [⟨"", some
        ⟨toySigned "secret" ⟨Unix (demoWorld.now + refreshExpiryTime), "refresh", "alice"⟩,
         toySigned "secret" ⟨Unix (demoWorld.now + accessExpiryTime), "access", "alice"⟩⟩,
        none⟩]) ∧
    (∃ s', GetAuthToken toyEnv demoController
        (bearerRequest "bob" ("Bearer " ++
          toySigned "secret" ⟨Unix (demoWorld.now + refreshExpiryTime), "refresh", "alice"⟩))
        demoWorld = .done s' ∧
      s'.w.status = some 200 ∧
      s'.w.body = [⟨"", some
        ⟨"", toySigned "secret" ⟨Unix (demoWorld.now + accessExpiryTime), "access", "bob"⟩⟩,
        none⟩]) := by
  constructor
  · refine ⟨_, GetRefreshToken_issue toyEnv demoController _ demoWorld alice _ _
      (by decide) (by decide) rfl (by decide) rfl rfl, ?_⟩
    have h1 : ∀ x : World, (finishIssue x "alice").w = x.w := by
      intro x
      have := UpdateTokenValidity_w x "alice" true
      unfold finishIssue
      split <;> simp_all
    have h2 : (authorizeRequest "alice" "wonderland").Var "username" = "alice" := by decide
    rw [h2, h1, SendSuccess_body]
    rfl
  · refine ⟨_, GetAuthToken_exchange toyEnv demoController _ demoWorld bob
      ⟨"refresh", "alice", Unix (demoWorld.now + refreshExpiryTime)⟩
      (toySigned "secret" ⟨Unix (demoWorld.now + accessExpiryTime), "access", "bob"⟩)
      (by rw [bearerToken_bearerRequest]; exact toySigned_ne_empty _ _)
      (by rw [Var_bearerRequest]; decide)
      (by rw [Var_bearerRequest]; rfl) rfl
      (by rw [bearerToken_bearerRequest]; exact toyParse_toySigned _ _ _ (by decide))
      rfl (by rw [Var_bearerRequest]; rfl), SendSuccess_status _ _ _ rfl, ?_⟩
    rw [SendSuccess_body]
    rfl

/-! ## C6 and C8 -/

/-- When the parser returns no token object, `validateAccessToken` panics: the field
access `refreshToken.Claims` comes before the test of `err`. -/
theorem validateAccessToken_nil_token (E : Env) (a : authController) (now : Nat)
    (token username tokenType : String)
    (h : (E.ParseWithClaims a.jwtSecret (Unix now) token).1 = none) :
    validateAccessToken E a now token username tokenType = .panic nilDereference := by
  unfold validateAccessToken
  split
  · rfl
  · rename_i heq
    rw [heq] at h
    simp at h

/-- When the parser returns a token object, `validateAccessToken` returns. -/
theorem validateAccessToken_returns (E : Env) (a : authController) (now : Nat)
    (token username tokenType : String) (t : Token)
    (h : (E.ParseWithClaims a.jwtSecret (Unix now) token).1 = some t) :
    ∃ err, validateAccessToken E a now token username tokenType = .ret err ∧
      ((t.Claims = none ∨ t.Valid = false ∨
        (E.ParseWithClaims a.jwtSecret (Unix now) token).2 ≠ none) →
        err = some "Invalid token") := by
  unfold validateAccessToken
  split
  · rename_i heq
    rw [heq] at h
    simp at h
  · rename_i rt e heq
    rw [heq] at h
    simp only [Option.some.injEq] at h
    subst h
    cases hc : rt.Claims with
    | none => exact ⟨_, rfl, fun _ => rfl⟩
    | some c =>
      cases hvld : rt.Valid with
      | false => exact ⟨_, rfl, fun _ => rfl⟩
      | true =>
        cases e with
        | some e => exact ⟨_, rfl, fun _ => rfl⟩
        | none =>
          simp only [heq, Bool.true_and, Option.isSome_none, Option.isNone_none, if_true]
          split
          · exact ⟨_, rfl, fun h => by simp at h⟩
          · exact ⟨_, rfl, fun h => by simp at h⟩

/-- The handler returned by `Wrapper`, when `validateAccessToken` does not panic:
`h` is run, once and on the untouched world, exactly when the bearer token and the
username are non-empty and the validation succeeds; otherwise the answer is 401 (no
bearer token) or 400, and is the same for every `h`. -/
theorem Wrapper_without_panic (E : Env) (a : authController) (k : String) (r : Request)
    (s : World)
    (hnp : ∀ m, validateAccessToken E a s.now (bearerToken r) (r.Var "username") k ≠
      .panic m) :
    ((bearerToken r ≠ "" ∧ r.Var "username" ≠ "" ∧
        validateAccessToken E a s.now (bearerToken r) (r.Var "username") k = .ret none) →
      ∀ h, Wrapper E a k h r s = h r s) ∧
    (¬ (bearerToken r ≠ "" ∧ r.Var "username" ≠ "" ∧
        validateAccessToken E a s.now (bearerToken r) (r.Var "username") k = .ret none) →
      ∃ m c, (c = StatusUnauthorized ∨ c = StatusBadRequest) ∧
        (c = StatusUnauthorized ↔ bearerToken r = "") ∧
        ∀ h, Wrapper E a k h r s = .done (SendError s m c)) := by
  constructor
  · rintro ⟨ht, hu, hv⟩ h
    simp only [Wrapper, beq_iff_eq, ht, hu, if_false, hv]
  · intro hc
    by_cases ht : bearerToken r = ""
    · exact ⟨"Bearer token required", StatusUnauthorized, Or.inl rfl, by simp [ht],
        fun h => by simp [Wrapper, ht]⟩
    · by_cases hu : r.Var "username" = ""
      · exact ⟨"Username required", StatusBadRequest, Or.inr rfl, by simp [ht],
          fun h => by simp [Wrapper, ht, hu]⟩
      · cases hv : validateAccessToken E a s.now (bearerToken r) (r.Var "username") k with
        | panic m => exact absurd hv (hnp m)
        | ret err =>
          cases err with
          | none => exact absurd ⟨ht, hu, hv⟩ hc
          | some m =>
            exact ⟨m, StatusBadRequest, Or.inr rfl, by simp [ht],
              fun h => by simp only [Wrapper, beq_iff_eq, ht, hu, if_false, hv]⟩

/-- A correctly signed token presented after its expiry: the wrapped handler answers
400 `Invalid token`, whatever `h` is. -/
theorem Wrapper_expired_token (E : Env) (hE : E.Lawful) (a : authController) (k : String)
    (r : Request) (s : World) (c : MapClaims)
    (ht : bearerToken r ≠ "") (hu : r.Var "username" ≠ "")
    (hs : E.SignedString a.jwtSecret c = .ok (bearerToken r))
    (h0 : c.exp ≠ 0) (hexp : c.exp < Unix s.now) :
    ∀ h, Wrapper E a k h r s = .done (SendError s "Invalid token" StatusBadRequest) := by
  intro h
  obtain ⟨t, e, hp, hvalid⟩ := hE.expired _ _ _ (Unix s.now) hs h0 hexp
  have hv : validateAccessToken E a s.now (bearerToken r) (r.Var "username") k =
      .ret (some "Invalid token") := by
    simp only [validateAccessToken, hp, hvalid]
    split <;> simp
  simp only [Wrapper, beq_iff_eq, ht, hu, if_false, hv]

/-- C6 (the code at the failing input): the wrapped handler, called with the bearer
token `abc` (which has not three segments), panics in `validateAccessToken`: it does
not invoke `h`, and it writes no response at all, so the response is not the error 400
(nor any other): the world is left as it was. -/
theorem C6_wrapper_panics_on_short_token (k : String) (h : handler) :
    Wrapper toyEnv demoController k h (bearerRequest "alice" "Bearer abc") demoWorld =
      .panic demoWorld nilDereference ∧
    demoWorld.w.status = none ∧ demoWorld.w.body = [] := by
  refine ⟨?_, rfl, rfl⟩
  have hb : bearerToken (bearerRequest "alice" "Bearer abc") = "abc" := by decide
  have hu : (bearerRequest "alice" "Bearer abc").Var "username" = "alice" := by decide
  have hv : validateAccessToken toyEnv demoController demoWorld.now "abc" "alice" k =
      .panic nilDereference :=
    validateAccessToken_nil_token _ _ _ _ _ _ (by decide)
  have h1 : ("abc" : String) ≠ "" := by decide
  have h2 : ("alice" : String) ≠ "" := by decide
  simp only [Wrapper, hb, hu, beq_iff_eq, h1, h2, if_false, hv]

/-- C8 (the code at the failing input): on the token string `abc`, for which the parser
returns no token object, `validateAccessToken` does not return the `Invalid token`
error: it panics with a nil pointer dereference. -/
theorem C8_validate_panics_on_short_token (now : Nat) (username tokenType : String) :
    toyEnv.ParseWithClaims demoController.jwtSecret (Unix now) "abc" =
      (none, some "token contains an invalid number of segments") ∧
    validateAccessToken toyEnv demoController now "abc" username tokenType =
      .panic nilDereference ∧
    validateAccessToken toyEnv demoController now "abc" username tokenType ≠
      .ret (some "Invalid token") := by
  have hp : toyEnv.ParseWithClaims demoController.jwtSecret (Unix now) "abc" =
      (none, some "token contains an invalid number of segments") := by
    simp only [toyEnv, toyParse]
    rfl
  have hv := validateAccessToken_nil_token toyEnv demoController now "abc" username tokenType
    (by rw [hp])
  exact ⟨hp, hv, by rw [hv]; simp⟩

/-! ## C7 -/

/-- Trimming `Bearer ` leaves nothing exactly for the empty string and for `Bearer `. -/
theorem TrimPrefix_Bearer_eq_empty (v : String) :
    TrimPrefix v "Bearer " = "" ↔ v = "" ∨ v = "Bearer " := by
  unfold TrimPrefix
  by_cases hpre : ("Bearer " : String).data.isPrefixOf v.data = true
  · rw [if_pos hpre]
    obtain ⟨t, ht⟩ := List.isPrefixOf_iff_prefix.mp hpre
    have hv : v = String.mk (("Bearer " : String).data ++ t) := by
      rw [ht]
    constructor
    · intro h
      have h2 := congrArg String.data h
      rw [← ht, List.drop_left] at h2
      simp only at h2
      have h3 : t = [] := h2
      right
      rw [hv, h3]
      rfl
    · rintro (h | h)
      · subst h
        exact absurd hpre (by decide)
      · subst h
        rfl
  · rw [if_neg hpre]
    constructor
    · intro h
      exact Or.inl h
    · rintro (h | h)
      · exact h
      · subst h
        exact absurd (by decide) hpre

/-- C7 (as stated, refuted): a resource call with the header `Authorization: Basic a.b.c`,
which is not of the form `Bearer <token>`, is not answered with 401: the whole value is
taken as the token and the answer is 400 `Invalid token`. -/
theorem C7_malformed_header_not_401 :
    Wrapper toyEnv demoController AccessTokenType noContent
        (bearerRequest "bob" "Basic a.b.c") demoWorld =
      .done (SendError demoWorld "Invalid token" StatusBadRequest) ∧
    (Wrapper toyEnv demoController AccessTokenType noContent
        (bearerRequest "bob" "Basic a.b.c") demoWorld).world.w.status = some 400 ∧
    (Wrapper toyEnv demoController AccessTokenType noContent
        (bearerRequest "bob" "Basic a.b.c") demoWorld).world.w.status ≠
      some StatusUnauthorized := by
  have hb : bearerToken (bearerRequest "bob" "Basic a.b.c") = "Basic a.b.c" := by decide
  have hu : (bearerRequest "bob" "Basic a.b.c").Var "username" = "bob" := by decide
  have hp : toyEnv.ParseWithClaims demoController.jwtSecret (Unix demoWorld.now)
      "Basic a.b.c" = (some ⟨none, false⟩, some "illegal header") := by
    simp only [toyEnv, toyParse]
    rfl
  have hv : validateAccessToken toyEnv demoController demoWorld.now "Basic a.b.c" "bob"
      AccessTokenType = .ret (some "Invalid token") := by
    simp only [validateAccessToken, hp]
  have h1 : ("Basic a.b.c" : String) ≠ "" := by decide
  have h2 : ("bob" : String) ≠ "" := by decide
  have h : Wrapper toyEnv demoController AccessTokenType noContent
      (bearerRequest "bob" "Basic a.b.c") demoWorld =
      .done (SendError demoWorld "Invalid token" StatusBadRequest) := by
    simp only [Wrapper, hb, hu, beq_iff_eq, h1, h2, if_false, hv]
  rw [h]
  refine ⟨rfl, ?_, ?_⟩
  · exact SendError_status _ _ _ rfl
  · have h3 : (Outcome.done (SendError demoWorld "Invalid token" StatusBadRequest)).world.w.status
        = some 400 := SendError_status _ _ _ rfl
    rw [h3]
    decide

/-- C7 (amended): the bearer token read by the wrapped handler is empty exactly when the
`Authorization` header is absent, has no value, or its first value is empty or is
`Bearer ` alone; in that case the handler responds 401 with the envelope
`error: code 401, message "Bearer token required"` and does not invoke `h`. For every
other header value the handler does not send that answer itself: it invokes `h`,
answers 400, or panics. -/
theorem C7_bearer_token_required (E : Env) (a : authController) (k : String) (h : handler)
    (r : Request) (s : World) (hw : s.w.status = none) (hb : s.w.body = []) :
    (bearerToken r = "" ↔
      (r.Header.lookup "Authorization" = none ∨ r.Header.lookup "Authorization" = some [] ∨
        ∃ rest, r.Header.lookup "Authorization" = some ("" :: rest) ∨
          r.Header.lookup "Authorization" = some ("Bearer " :: rest))) ∧
    (bearerToken r = "" →
      Wrapper E a k h r s =
        .done (SendError s "Bearer token required" StatusUnauthorized) ∧
      (Wrapper E a k h r s).world.w.status = some StatusUnauthorized ∧
      (Wrapper E a k h r s).world.w.body =
        [{ Error := some ⟨StatusUnauthorized, "Bearer token required"⟩ }]) ∧
    (bearerToken r ≠ "" →
      Wrapper E a k h r s = h r s ∨
      (∃ m, Wrapper E a k h r s = .done (SendError s m StatusBadRequest)) ∨
      ∃ m, Wrapper E a k h r s = .panic s m) := by
  refine ⟨?_, ?_, ?_⟩
  · unfold bearerToken
    cases hl : r.Header.lookup "Authorization" with
    | none => simp
    | some vs =>
      cases vs with
      | nil => simp
      | cons v rest =>
        simp only [TrimPrefix_Bearer_eq_empty, reduceCtorEq, Option.some.injEq,
          List.cons.injEq, false_or, exists_or]
        constructor
        · rintro (h1 | h1)
          · exact Or.inl ⟨rest, h1, rfl⟩
          · exact Or.inr ⟨rest, h1, rfl⟩
        · rintro (⟨_, h1, _⟩ | ⟨_, h1, _⟩)
          · exact Or.inl h1
          · exact Or.inr h1
  · intro ht
    have hW : Wrapper E a k h r s =
        .done (SendError s "Bearer token required" StatusUnauthorized) := by
      simp [Wrapper, ht]
    rw [hW]
    refine ⟨rfl, SendError_status _ _ _ hw, ?_⟩
    simp [Outcome.world, hb]
  · intro ht
    by_cases hu : r.Var "username" = ""
    · exact Or.inr (Or.inl ⟨"Username required", by simp [Wrapper, ht, hu]⟩)
    · cases hv : validateAccessToken E a s.now (bearerToken r) (r.Var "username") k with
      | panic m =>
        exact Or.inr (Or.inr ⟨m, by simp only [Wrapper, beq_iff_eq, ht, hu, if_false, hv]⟩)
      | ret err =>
        cases err with
        | none => exact Or.inl (by simp only [Wrapper, beq_iff_eq, ht, hu, if_false, hv])
        | some m =>
          exact Or.inr (Or.inl ⟨m, by simp only [Wrapper, beq_iff_eq, ht, hu, if_false, hv]⟩)

/-- C7 (amended) at concrete inputs: a call without any header, and a call whose header is
`Bearer ` alone. -/
theorem C7_bearer_token_required_witness :
    (Wrapper toyEnv demoController AccessTokenType noContent
        { Vars := [("username", "bob")] } demoWorld).world.w.body =
      [{ Error := some ⟨401, "Bearer token required"⟩ }] ∧
    (Wrapper toyEnv demoController AccessTokenType noContent
        (bearerRequest "bob" "Bearer ") demoWorld).world.w.status = some 401 :=
  ⟨((C7_bearer_token_required toyEnv demoController AccessTokenType noContent
      { Vars := [("username", "bob")] } demoWorld rfl rfl).2.1 (by decide)).2.2,
   ((C7_bearer_token_required toyEnv demoController AccessTokenType noContent
      (bearerRequest "bob" "Bearer ") demoWorld rfl rfl).2.1 (by decide)).2.1⟩

/-! ## C9 -/

/-- What the last lines of `GetRefreshToken` do: the response writer is left alone, the
table is the one left by `UpdateTokenValidity`, and the trace grows by the single
store call followed by log lines. -/
theorem finishIssue_spec (x : World) (username : String) :
    (finishIssue x username).w = x.w ∧
    (finishIssue x username).db = (UpdateTokenValidity x username true).1.db ∧
    ∃ logs : List String, (finishIssue x username).trace =
      x.trace ++ Event.Call (StoreCall.UpdateTokenValidity username true) ::
        logs.map Event.Log := by
  have hw := UpdateTokenValidity_w x username true
  obtain ⟨logs, ht⟩ := UpdateTokenValidity_trace x username true
  unfold finishIssue
  split
  · rename_i s1 err heq
    rw [heq] at hw ht
    refine ⟨hw, by rw [heq]; rfl,
      logs ++ ["could not set user token validity to valid\n" ++ err.Error], ?_⟩
    simp only at ht
    simp only [logPrintf_trace, ht, List.map_append, List.append_assoc, List.cons_append,
      List.map]
  · rename_i s1 heq
    rw [heq] at hw ht
    exact ⟨hw, by rw [heq], logs, ht⟩

/-- Looking a user up after the flag of that user has been set. -/
theorem find_after_update (rows : List User) (username : String) (flag : Bool) (user : User)
    (h : rows.find? (fun (u : User) => u.Username == username) = some user) :
    (rows.map (fun (u : User) =>
        if u.Username == username then { u with InvalidatedTokens := flag } else u)).find?
      (fun (u : User) => u.Username == username) =
      some { user with InvalidatedTokens := flag } := by
  induction rows with
  | nil => simp at h
  | cons x xs ih =>
    cases hx : (x.Username == username) with
    | true =>
      simp only [List.find?_cons, hx, Option.some.injEq] at h
      subst h
      simp only [List.map_cons, hx, if_true, List.find?_cons]
    | false =>
      simp only [List.find?_cons, hx] at h
      simp only [List.map_cons, hx, Bool.false_eq_true, if_false, List.find?_cons]
      exact ih h

/-- C9: on successful issuance `GetRefreshToken` first writes the 200 response with
both tokens and only then calls `UpdateTokenValidity(username, true)`, exactly once
(after it only log lines follow); the response is the one written by `SendSuccess`,
whether the update succeeds or fails; when the `UPDATE` statement is executed the
stored invalidation flag of the user is `false` afterwards, and when it fails the
table is unchanged. -/
theorem C9_respond_then_update (E : Env) (a : authController) (r : Request) (s : World)
    (user : User) (refreshToken accessToken : String)
    (hw : s.w.status = none) (hb : s.w.body = [])
    (hu : r.Var "username" ≠ "") (hp : r.HeaderGet "Password" ≠ "")
    (hget : (GetUser s (r.Var "username")).2 = .ok user)
    (hpw : E.CompareHashAndPassword user.Password (r.HeaderGet "Password") = none)
    (hr : E.SignedString a.jwtSecret
      ⟨Unix (s.now + refreshExpiryTime), RefreshTokenType, r.Var "username"⟩ = .ok refreshToken)
    (ha : getAccessToken E a s.now (r.Var "username") = .ok accessToken) :
    ∃ s' logs, GetRefreshToken E a r s = .done s' ∧
      s'.w = (SendSuccess s ⟨refreshToken, accessToken⟩ StatusOK).w ∧
      s'.w.status = some StatusOK ∧
      s'.w.body = [{ Data := some ⟨refreshToken, accessToken⟩ }] ∧
      s'.trace = s.trace ++
        [Event.Call (StoreCall.GetUser (r.Var "username")),
         Event.WriteHeader StatusOK,
         Event.Write { Data := some ⟨refreshToken, accessToken⟩ },
         Event.Call (StoreCall.UpdateTokenValidity (r.Var "username") true)] ++
        List.map Event.Log logs ∧
      (s.db.faults.Exec = none →
        (GetUser s' (r.Var "username")).2 = .ok { user with InvalidatedTokens := false } ∧
        ∀ x ∈ s'.db.rows, x.Username = r.Var "username" → x.InvalidatedTokens = false) ∧
      (∀ e, s.db.faults.Exec = some e → s'.db = s.db) := by
  have hrun := GetRefreshToken_issue E a r s user refreshToken accessToken hu hp hget hpw hr ha
  obtain ⟨h1, h2, logs, h3⟩ := finishIssue_spec
    (SendSuccess
      { s with trace := s.trace ++ [Event.Call (StoreCall.GetUser (r.Var "username"))] }
      ⟨refreshToken, accessToken⟩ StatusOK) (r.Var "username")
  obtain ⟨hf, hrows⟩ := UpdateTokenValidity_rows
    (SendSuccess
      { s with trace := s.trace ++ [Event.Call (StoreCall.GetUser (r.Var "username"))] }
      ⟨refreshToken, accessToken⟩ StatusOK) (r.Var "username") true
  rw [← h2] at hf hrows
  simp only [SendSuccess_db] at hf hrows
  refine ⟨_, logs, hrun, ?_, ?_, ?_, ?_, ?_, ?_⟩
  · rw [h1]
    simp [SendSuccess, Marshal, Write, WriteHeader]
  · rw [h1]
    exact SendSuccess_status _ _ _ hw
  · rw [h1]
    simp [hb]
  · rw [h3]
    simp
  · intro he
    rw [he] at hrows
    simp only [Option.isSome_none, Bool.false_eq_true, if_false, Bool.not_true] at hrows
    have hq : s.db.faults.Query = none := by
      cases hq : s.db.faults.Query with
      | none => rfl
      | some e => simp [GetUser, hq] at hget
    have hfind : s.db.rows.find? (fun (u : User) => u.Username == r.Var "username") =
        some user := by
      cases hfd : s.db.rows.find? (fun (u : User) => u.Username == r.Var "username") with
      | none => simp [GetUser, hq, hfd] at hget
      | some u =>
        cases hsc : s.db.faults.Scan with
        | some e => simp [GetUser, hq, hfd, hsc] at hget
        | none =>
          have := hget
          simp only [GetUser, hq, hfd, hsc, Except.ok.injEq] at this
          rw [this]
    have hsc : s.db.faults.Scan = none := by
      cases hsc : s.db.faults.Scan with
      | none => rfl
      | some e => simp [GetUser, hq, hfind, hsc] at hget
    constructor
    · have hfind2 := find_after_update s.db.rows (r.Var "username") false user hfind
      rw [← hrows] at hfind2
      simp only [GetUser, hf, hq, hsc, hfind2]
    · intro x hx hxu
      rw [hrows, List.mem_map] at hx
      obtain ⟨y, -, hy⟩ := hx
      by_cases hyu : y.Username = r.Var "username"
      · simp only [hyu, beq_self_eq_true, if_true] at hy
        rw [← hy]
      · have hyu2 : (y.Username == r.Var "username") = false := by simpa using hyu
        simp only [hyu2, Bool.false_eq_true, if_false] at hy
        rw [hy] at hyu
        exact absurd hxu hyu
  · intro e he
    have hrows2 : (finishIssue
        (SendSuccess
          { s with trace := s.trace ++ [Event.Call (StoreCall.GetUser (r.Var "username"))] }
          ⟨refreshToken, accessToken⟩ StatusOK) (r.Var "username")).db.rows = s.db.rows := by
      rw [hrows, he]
      rfl
    cases hd : (finishIssue
        (SendSuccess
          { s with trace := s.trace ++ [Event.Call (StoreCall.GetUser (r.Var "username"))] }
          ⟨refreshToken, accessToken⟩ StatusOK) (r.Var "username")).db with
    | mk rows faults =>
      rw [hd] at hf hrows2
      simp only at hf hrows2
      rw [hf, hrows2]

/-- C9 at concrete inputs: `alice` signing in when the update works and when the
driver refuses the `UPDATE`; the response is the same 200. -/
theorem C9_respond_then_update_witness :
    ∃ s1 s2,
      GetRefreshToken toyEnv demoController (authorizeRequest "alice" "wonderland")
        demoWorld = .done s1 ∧
      GetRefreshToken toyEnv demoController (authorizeRequest "alice" "wonderland")
        lockedWorld = .done s2 ∧
      s1.w = s2.w ∧ s1.w.status = some 200 ∧ s2.db = lockedWorld.db ∧
      (GetUser s1 "alice").2 = .ok { alice with InvalidatedTokens := false } :=
  let ⟨s1, _, h1, h2, h3, _, _, h6, _⟩ :=
    C9_respond_then_update toyEnv demoController (authorizeRequest "alice" "wonderland")
      demoWorld alice
      (toySigned "secret" ⟨Unix (demoWorld.now + refreshExpiryTime), "refresh", "alice"⟩)
      (toySigned "secret" ⟨Unix (demoWorld.now + accessExpiryTime), "access", "alice"⟩)
      rfl rfl (by decide) (by decide) rfl (by decide) rfl rfl
  let ⟨s2, _, k1, k2, _, _, _, _, k7⟩ :=
    C9_respond_then_update toyEnv demoController (authorizeRequest "alice" "wonderland")
      lockedWorld alice
      (toySigned "secret" ⟨Unix (demoWorld.now + refreshExpiryTime), "refresh", "alice"⟩)
      (toySigned "secret" ⟨Unix (demoWorld.now + accessExpiryTime), "access", "alice"⟩)
      rfl rfl (by decide) (by decide) rfl (by decide) rfl rfl
  ⟨s1, s2, h1, k1, h2.trans k2.symm, h3, k7 "database is locked" rfl, (h6 rfl).1⟩

/-! ## C10 -/

/-- C10: `GetRefreshToken` maps input and lookup failures in a fixed order. An empty
username or an empty `Password` header yields 400 and the trace grows by the response
only (no store call); otherwise a `NotFound` error of `GetUser` yields 404; otherwise
any other store error yields 500 with the message `Error getting user from database`,
whatever the text of the error. In each case the response carries no token, the table
is unchanged, and the trace holds no `UpdateTokenValidity` call: after `GetUser` come
log lines and the response only. -/
theorem C10_lookup_failures (E : Env) (a : authController) (r : Request) (s : World)
    (hw : s.w.status = none) (hb : s.w.body = []) :
    (r.Var "username" = "" →
      GetRefreshToken E a r s = .done (SendError s "Username required" StatusBadRequest)) ∧
    (r.Var "username" ≠ "" → r.HeaderGet "Password" = "" →
      GetRefreshToken E a r s =
        .done (SendError s "Password header required" StatusBadRequest)) ∧
    (∀ m, (SendError s m StatusBadRequest).w.status = some StatusBadRequest ∧
      (SendError s m StatusBadRequest).w.body = [{ Error := some ⟨StatusBadRequest, m⟩ }] ∧
      (SendError s m StatusBadRequest).db = s.db ∧
      (SendError s m StatusBadRequest).trace = s.trace ++
        [Event.WriteHeader StatusBadRequest,
         Event.Write { Error := some ⟨StatusBadRequest, m⟩ }]) ∧
    (r.Var "username" ≠ "" → r.HeaderGet "Password" ≠ "" →
      ∀ resource, (GetUser s (r.Var "username")).2 = .error (.NotFound resource) →
      ∃ s' logs, GetRefreshToken E a r s = .done s' ∧
        s'.w.status = some StatusNotFound ∧
        s'.w.body =
          [{ Error := some ⟨StatusNotFound, "User " ++ r.Var "username" ++ " not found"⟩ }] ∧
        s'.db = s.db ∧
        s'.trace = s.trace ++ Event.Call (StoreCall.GetUser (r.Var "username")) ::
          (List.map Event.Log logs ++
            [Event.WriteHeader StatusNotFound,
             Event.Write ⟨"", none,
               some ⟨StatusNotFound, "User " ++ r.Var "username" ++ " not found"⟩⟩])) ∧
    (r.Var "username" ≠ "" → r.HeaderGet "Password" ≠ "" →
      ∀ text, (GetUser s (r.Var "username")).2 = .error (.Sql text) →
      ∃ s' logs, GetRefreshToken E a r s = .done s' ∧
        s'.w.status = some StatusInternalServerError ∧
        s'.w.body =
          [{ Error := some ⟨StatusInternalServerError, "Error getting user from database"⟩ }] ∧
        s'.db = s.db ∧
        s'.trace = s.trace ++ Event.Call (StoreCall.GetUser (r.Var "username")) ::
          (List.map Event.Log logs ++
            [Event.WriteHeader StatusInternalServerError,
             Event.Write ⟨"", none,
               some ⟨StatusInternalServerError, "Error getting user from database"⟩⟩])) := by
  refine ⟨?_, ?_, ?_, ?_, ?_⟩
  · intro hu
    simp [GetRefreshToken, hu]
  · intro hu hp
    simp [GetRefreshToken, hu, hp]
  · intro m
    exact ⟨SendError_status _ _ _ hw, by simp [hb], rfl, by simp⟩
  · intro hu hp resource hget
    obtain ⟨s1, h1, h2, h3, -, logs, h5⟩ := GetUser_error _ _ _ hget
    refine ⟨SendError s1 ("User " ++ r.Var "username" ++ " not found") StatusNotFound,
      logs, ?_, ?_, ?_, ?_, ?_⟩
    · simp [GetRefreshToken, hu, hp, h1, IsNotFound]
    · exact SendError_status s1 _ StatusNotFound (by rw [h2]; exact hw)
    · simp [h2, hb]
    · simp [h3]
    · simp [h5]
  · intro hu hp text hget
    obtain ⟨s1, h1, h2, h3, -, logs, h5⟩ := GetUser_error _ _ _ hget
    refine ⟨SendError
      (logPrintf s1
        ("could not get user " ++ r.Var "username" ++ " from the database\n" ++ text))
      "Error getting user from database" StatusInternalServerError,
      logs ++ ["could not get user " ++ r.Var "username" ++ " from the database\n" ++ text],
      ?_, ?_, ?_, ?_, ?_⟩
    · simp [GetRefreshToken, hu, hp, h1, IsNotFound, StoreError.Error]
    · exact SendError_status (logPrintf s1 _) _ StatusInternalServerError
        (by rw [logPrintf_w, h2]; exact hw)
    · simp [h2, hb]
    · simp [h3]
    · simp [h5]

/-- C10 at concrete inputs: no password, an unknown user, and a failing driver. -/
theorem C10_lookup_failures_witness :
    GetRefreshToken toyEnv demoController (authorizeRequest "alice" "") demoWorld =
      .done (SendError demoWorld "Password header required" 400) ∧
    (∃ s' logs, GetRefreshToken toyEnv demoController (authorizeRequest "dave" "x")
        demoWorld = .done s' ∧
      s'.w.status = some 404 ∧
      s'.w.body = [{ Error := some ⟨404, "User dave not found"⟩ }] ∧
      s'.db = demoWorld.db ∧
      s'.trace = Event.Call (StoreCall.GetUser "dave") :: (List.map Event.Log logs ++
        [Event.WriteHeader 404,
         Event.Write { Error := some ⟨404, "User dave not found"⟩ }])) ∧
    (∃ s' logs, GetRefreshToken toyEnv demoController (authorizeRequest "alice" "wonderland")
        downWorld = .done s' ∧
      s'.w.status = some 500 ∧
      s'.w.body = [{ Error := some ⟨500, "Error getting user from database"⟩ }] ∧
      s'.db = downWorld.db ∧
      s'.trace = Event.Call (StoreCall.GetUser "alice") :: (List.map Event.Log logs ++
        [Event.WriteHeader 500,
         Event.Write { Error := some ⟨500, "Error getting user from database"⟩ }])) :=
  ⟨(C10_lookup_failures toyEnv demoController (authorizeRequest "alice" "") demoWorld
      rfl rfl).2.1 (by decide) (by decide),
   (C10_lookup_failures toyEnv demoController (authorizeRequest "dave" "x") demoWorld
      rfl rfl).2.2.2.1 (by decide) (by decide) "user dave" rfl,
   (C10_lookup_failures toyEnv demoController (authorizeRequest "alice" "wonderland")
      downWorld rfl rfl).2.2.2.2 (by decide) (by decide) "disk I/O error" rfl⟩

/-! ## C11 -/

theorem storeCalls_append (t u : List Event) :
    storeCalls (t ++ u) = storeCalls t ++ storeCalls u := by
  simp [storeCalls, List.filterMap_append]

theorem storeCalls_logs (logs : List String) : storeCalls (logs.map Event.Log) = [] := by
  induction logs with
  | nil => rfl
  | cons l ls ih =>
    simp only [storeCalls, List.map_cons, List.filterMap_cons] at ih ⊢
    exact ih

theorem storeCalls_SendError (s : World) (m : String) (c : Nat) :
    storeCalls (SendError s m c).trace = storeCalls s.trace := by
  rw [SendError_trace, storeCalls_append]
  simp [storeCalls]

theorem storeCalls_SendSuccess (s : World) (t : tokens) (c : Nat) :
    storeCalls (SendSuccess s t c).trace = storeCalls s.trace := by
  rw [SendSuccess_trace, storeCalls_append]
  simp [storeCalls]

/-- The paths through `GetAuthToken`: an error answer before the store is reached; or,
after the one call of `GetUser` (world `s1`: the same response writer, table and clock,
the trace grown by the call and by log lines), an error answer, a panic, or the 200
answer that carries a fresh access token and no refresh token. -/
theorem GetAuthToken_cases (E : Env) (a : authController) (r : Request) (s : World) :
    (∃ m c, c ≠ StatusOK ∧ GetAuthToken E a r s = .done (SendError s m c)) ∨
    (∃ s1 logs, s1.w = s.w ∧ s1.db = s.db ∧
      s1.trace = s.trace ++
        Event.Call (StoreCall.GetUser (r.Var "username")) :: List.map Event.Log logs ∧
      ((∃ m c, c ≠ StatusOK ∧ GetAuthToken E a r s = .done (SendError s1 m c)) ∨
       (∃ msg, GetAuthToken E a r s = .panic s1 msg) ∨
       (∃ accessToken, getAccessToken E a s.now (r.Var "username") = .ok accessToken ∧
          GetAuthToken E a r s = .done (SendSuccess s1 ⟨"", accessToken⟩ StatusOK)))) := by
  by_cases ht : bearerToken r = ""
  · exact Or.inl ⟨"Bearer token required", StatusUnauthorized, by decide,
      by simp [GetAuthToken, ht]⟩
  by_cases hu : r.Var "username" = ""
  · exact Or.inl ⟨"Username required", StatusBadRequest, by decide,
      by simp [GetAuthToken, ht, hu]⟩
  right
  cases hget : (GetUser s (r.Var "username")).2 with
  | error err =>
    obtain ⟨s1, h1, h2, h3, -, logs, h5⟩ := GetUser_error _ _ _ hget
    cases hnf : IsNotFound err with
    | true =>
      exact ⟨s1, logs, h2, h3, h5, Or.inl ⟨"User " ++ r.Var "username" ++ " not found",
        StatusNotFound, by decide, by simp [GetAuthToken, ht, hu, h1, hnf]⟩⟩
    | false =>
      refine ⟨logPrintf s1
          ("could not get user " ++ r.Var "username" ++ " from the database\n" ++ err.Error),
        logs ++ ["could not get user " ++ r.Var "username" ++ " from the database\n" ++
          err.Error], by simp [h2], by simp [h3], by simp [h5], Or.inl
        ⟨"Error getting user from database", StatusInternalServerError, by decide, ?_⟩⟩
      simp [GetAuthToken, ht, hu, h1, hnf]
  | ok user =>
    have hg := GetUser_ok _ _ _ hget
    cases hinv : user.InvalidatedTokens with
    | true =>
      exact ⟨({ s with trace :=
          s.trace ++ [Event.Call (StoreCall.GetUser (r.Var "username"))] } : World), [], rfl, rfl, rfl, Or.inl ⟨"Refresh token has been invalidated",
        StatusUnauthorized, by decide, by simp [GetAuthToken, ht, hu, hg, hinv]⟩⟩
    | false =>
      cases hv : validateAccessToken E a s.now (bearerToken r) user.Username
          RefreshTokenType with
      | panic msg =>
        exact ⟨({ s with trace :=
          s.trace ++ [Event.Call (StoreCall.GetUser (r.Var "username"))] } : World), [], rfl, rfl, rfl, Or.inr (Or.inl ⟨msg, by
          simp only [GetAuthToken, beq_iff_eq, ht, hu, if_false, hg, hinv,
            Bool.false_eq_true, hv]⟩)⟩
      | ret err =>
        cases err with
        | some m =>
          exact ⟨({ s with trace :=
          s.trace ++ [Event.Call (StoreCall.GetUser (r.Var "username"))] } : World), [], rfl, rfl, rfl, Or.inl ⟨m, StatusBadRequest, by decide, by
            simp only [GetAuthToken, beq_iff_eq, ht, hu, if_false, hg, hinv,
              Bool.false_eq_true, hv]⟩⟩
        | none =>
          cases hacc : getAccessToken E a s.now (r.Var "username") with
          | error e =>
            refine ⟨logPrintf ({ s with trace :=
          s.trace ++ [Event.Call (StoreCall.GetUser (r.Var "username"))] } : World) ("could not generate access token\n" ++ e),
              ["could not generate access token\n" ++ e], rfl, rfl, by simp, Or.inl
              ⟨"Error generating token", StatusInternalServerError, by decide, ?_⟩⟩
            simp only [GetAuthToken, beq_iff_eq, ht, hu, if_false, hg, hinv,
              Bool.false_eq_true, hv, hacc]
          | ok accessToken =>
            exact ⟨({ s with trace :=
          s.trace ++ [Event.Call (StoreCall.GetUser (r.Var "username"))] } : World), [], rfl, rfl, rfl, Or.inr (Or.inr ⟨accessToken, rfl, by
              simp only [GetAuthToken, beq_iff_eq, ht, hu, if_false, hg, hinv,
                Bool.false_eq_true, hv, hacc]⟩)⟩

/-- C11: `GetAuthToken` and the handler returned by `Wrapper` do not mutate the user
record. On every path through `GetAuthToken` (a panic included) the table is unchanged
and the store calls made are none, or the single `GetUser` of the path username; the
`Wrapper` handler either hands over to `h` (its outcome is then that of `h`) or leaves the
table unchanged and makes no store call at all. Every envelope `GetAuthToken` writes has
an empty `RefreshToken`, and when it answers 200 the body is the one envelope holding the
fresh access token and an empty `RefreshToken` (a field tagged `omitempty`). -/
theorem C11_no_store_mutation (E : Env) (a : authController) (k : String) (h : handler)
    (r : Request) (s : World) :
    ((GetAuthToken E a r s).world.db = s.db ∧
      ∃ cs, storeCalls (GetAuthToken E a r s).world.trace = storeCalls s.trace ++ cs ∧
        (cs = [] ∨ cs = [StoreCall.GetUser (r.Var "username")]) ∧
        ∀ c ∈ cs, c.isMutation = false) ∧
    (Wrapper E a k h r s = h r s ∨
      ((Wrapper E a k h r s).world.db = s.db ∧
        storeCalls (Wrapper E a k h r s).world.trace = storeCalls s.trace)) ∧
    (∀ b ∈ (GetAuthToken E a r s).world.w.body,
      b ∈ s.w.body ∨ ∀ t, b.Data = some t → t.RefreshToken = "") ∧
    (s.w.status = none → ∀ s', GetAuthToken E a r s = .done s' →
      s'.w.status = some StatusOK →
      ∃ accessToken, getAccessToken E a s.now (r.Var "username") = .ok accessToken ∧
        s'.w.body = s.w.body ++ [⟨"", some ⟨"", accessToken⟩, none⟩]) := by
  have hcalls : ∀ (s1 : World) (logs : List String),
      s1.trace = s.trace ++
        Event.Call (StoreCall.GetUser (r.Var "username")) :: List.map Event.Log logs →
      storeCalls s1.trace = storeCalls s.trace ++ [StoreCall.GetUser (r.Var "username")] := by
    intro s1 logs h5
    rw [h5, storeCalls_append]
    have : storeCalls (Event.Call (StoreCall.GetUser (r.Var "username")) ::
        List.map Event.Log logs) =
        StoreCall.GetUser (r.Var "username") :: storeCalls (List.map Event.Log logs) := rfl
    rw [this, storeCalls_logs]
  have hone : ∀ c ∈ [StoreCall.GetUser (r.Var "username")], c.isMutation = false := by
    intro c hc
    rw [List.mem_singleton] at hc
    rw [hc]
    rfl
  refine ⟨?_, ?_, ?_, ?_⟩
  · rcases GetAuthToken_cases E a r s with ⟨m, c, -, ho⟩ | ⟨s1, logs, h2, h3, h5, hc⟩
    · rw [ho]
      exact ⟨rfl, [], by simp only [Outcome.world, storeCalls_SendError, List.append_nil],
        Or.inl rfl, by simp⟩
    · rcases hc with ⟨m, c, -, ho⟩ | ⟨msg, ho⟩ | ⟨accessToken, -, ho⟩
      · rw [ho]
        exact ⟨h3, _, by simp only [Outcome.world, storeCalls_SendError, hcalls s1 logs h5],
          Or.inr rfl, hone⟩
      · rw [ho]
        exact ⟨h3, _, by simp only [Outcome.world, hcalls s1 logs h5], Or.inr rfl, hone⟩
      · rw [ho]
        exact ⟨h3, _, by simp only [Outcome.world, storeCalls_SendSuccess, hcalls s1 logs h5],
          Or.inr rfl, hone⟩
  · by_cases ht : bearerToken r = ""
    · right
      have ho : Wrapper E a k h r s =
          .done (SendError s "Bearer token required" StatusUnauthorized) := by
        simp [Wrapper, ht]
      rw [ho]
      exact ⟨rfl, by simp only [Outcome.world, storeCalls_SendError]⟩
    by_cases hu : r.Var "username" = ""
    · right
      have ho : Wrapper E a k h r s =
          .done (SendError s "Username required" StatusBadRequest) := by
        simp [Wrapper, ht, hu]
      rw [ho]
      exact ⟨rfl, by simp only [Outcome.world, storeCalls_SendError]⟩
    cases hv : validateAccessToken E a s.now (bearerToken r) (r.Var "username") k with
    | panic msg =>
      right
      have ho : Wrapper E a k h r s = .panic s msg := by
        simp only [Wrapper, beq_iff_eq, ht, hu, if_false, hv]
      rw [ho]
      exact ⟨rfl, rfl⟩
    | ret err =>
      cases err with
      | none =>
        left
        simp only [Wrapper, beq_iff_eq, ht, hu, if_false, hv]
      | some m =>
        right
        have ho : Wrapper E a k h r s = .done (SendError s m StatusBadRequest) := by
          simp only [Wrapper, beq_iff_eq, ht, hu, if_false, hv]
        rw [ho]
        exact ⟨rfl, by simp only [Outcome.world, storeCalls_SendError]⟩
  · intro b hb
    rcases GetAuthToken_cases E a r s with ⟨m, c, -, ho⟩ | ⟨s1, logs, h2, h3, h5, hc⟩
    · rw [ho] at hb
      simp only [Outcome.world, SendError_body, List.mem_append, List.mem_singleton] at hb
      rcases hb with hb | hb
      · exact Or.inl hb
      · right
        intro t ht
        rw [hb] at ht
        simp at ht
    · rcases hc with ⟨m, c, -, ho⟩ | ⟨msg, ho⟩ | ⟨accessToken, -, ho⟩
      · rw [ho] at hb
        simp only [Outcome.world, SendError_body, List.mem_append, List.mem_singleton,
          h2] at hb
        rcases hb with hb | hb
        · exact Or.inl hb
        · right
          intro t ht
          rw [hb] at ht
          simp at ht
      · rw [ho] at hb
        simp only [Outcome.world, h2] at hb
        exact Or.inl hb
      · rw [ho] at hb
        simp only [Outcome.world, SendSuccess_body, List.mem_append, List.mem_singleton,
          h2] at hb
        rcases hb with hb | hb
        · exact Or.inl hb
        · right
          intro t ht
          rw [hb] at ht
          simp only [Option.some.injEq] at ht
          rw [← ht]
  · intro hw s' hs' hst
    rcases GetAuthToken_cases E a r s with ⟨m, c, hne, ho⟩ | ⟨s1, logs, h2, h3, h5, hc⟩
    · rw [ho] at hs'
      simp only [Outcome.done.injEq] at hs'
      rw [← hs', SendError_status _ _ _ hw] at hst
      simp only [Option.some.injEq] at hst
      exact absurd hst hne
    · rcases hc with ⟨m, c, hne, ho⟩ | ⟨msg, ho⟩ | ⟨accessToken, hacc, ho⟩
      · rw [ho] at hs'
        simp only [Outcome.done.injEq] at hs'
        rw [← hs', SendError_status _ _ _ (by rw [h2]; exact hw)] at hst
        simp only [Option.some.injEq] at hst
        exact absurd hst hne
      · rw [ho] at hs'
        simp at hs'
      · rw [ho] at hs'
        simp only [Outcome.done.injEq] at hs'
        refine ⟨accessToken, hacc, ?_⟩
        rw [← hs', SendSuccess_body, h2]

/-- C11 at a concrete input: `alice` exchanging her refresh token. The answer holds the
access token alone, the table is as before, and the one store call is `GetUser`. -/
theorem C11_no_store_mutation_witness :
    ∃ s', GetAuthToken toyEnv demoController
        (bearerRequest "alice" ("Bearer " ++
          toySigned "secret" ⟨Unix (demoWorld.now + refreshExpiryTime), "refresh", "alice"⟩))
        demoWorld = .done s' ∧
      s'.db = demoWorld.db ∧
      s'.w.body = [⟨"", some
        ⟨"", toySigned "secret" ⟨Unix (demoWorld.now + accessExpiryTime), "access", "alice"⟩⟩,
        none⟩] ∧
      ∃ cs, storeCalls s'.trace = storeCalls demoWorld.trace ++ cs ∧
        ∀ c ∈ cs, c.isMutation = false := by
  have hx := GetAuthToken_exchange toyEnv demoController
    (bearerRequest "alice" ("Bearer " ++
      toySigned "secret" ⟨Unix (demoWorld.now + refreshExpiryTime), "refresh", "alice"⟩))
    demoWorld alice ⟨"refresh", "alice", Unix (demoWorld.now + refreshExpiryTime)⟩
    (toySigned "secret" ⟨Unix (demoWorld.now + accessExpiryTime), "access", "alice"⟩)
    (by rw [bearerToken_bearerRequest]; exact toySigned_ne_empty _ _)
    (by rw [Var_bearerRequest]; decide)
    (by rw [Var_bearerRequest]; rfl) rfl
    (by rw [bearerToken_bearerRequest]; exact toyParse_toySigned _ _ _ (by decide))
    rfl (by rw [Var_bearerRequest]; rfl)
  have hT := C11_no_store_mutation toyEnv demoController RefreshTokenType noContent
    (bearerRequest "alice" ("Bearer " ++
      toySigned "secret" ⟨Unix (demoWorld.now + refreshExpiryTime), "refresh", "alice"⟩))
    demoWorld
  obtain ⟨⟨hdb, cs, hcs, -, hmut⟩, -, -, hok⟩ := hT
  obtain ⟨accessToken, hacc, hbody⟩ := hok rfl _ hx (SendSuccess_status _ _ _ rfl)
  rw [hx] at hdb hcs
  refine ⟨_, hx, hdb, ?_, cs, hcs, hmut⟩
  have hacc2 : getAccessToken toyEnv demoController demoWorld.now "alice" =
      .ok accessToken := by
    rw [Var_bearerRequest] at hacc
    exact hacc
  have hacc3 : accessToken =
      toySigned "secret" ⟨Unix (demoWorld.now + accessExpiryTime), "access", "alice"⟩ := by
    have h3 : getAccessToken toyEnv demoController demoWorld.now "alice" = .ok
        (toySigned "secret" ⟨Unix (demoWorld.now + accessExpiryTime), "access", "alice"⟩) :=
      rfl
    rw [h3] at hacc2
    exact (Except.ok.inj hacc2).symm
  rw [hbody, hacc3]
  rfl

/-! ## C12 -/

/-- Adding whole seconds to a time adds them to its `Unix` value. -/
theorem Unix_add_seconds (t n : Nat) : Unix (t + n * 1000000000) = Unix t + n := by
  unfold Unix
  exact Nat.add_mul_div_right t n (by decide)

theorem refreshExpiryTime_seconds : refreshExpiryTime = 5184000 * 1000000000 := by decide

theorem accessExpiryTime_seconds : accessExpiryTime = 7200 * 1000000000 := by decide

/-- The expiry that `getAccessToken` signs: the clock's seconds plus 7200. -/
theorem getAccessToken_exp (E : Env) (a : authController) (now : Nat) (username : String) :
    getAccessToken E a now username =
      E.SignedString a.jwtSecret ⟨Unix now + 7200, AccessTokenType, username⟩ := by
  unfold getAccessToken
  rw [accessExpiryTime_seconds, Unix_add_seconds]

/-- C12: the constants are `refreshExpiryTime` = 60 days = 5,184,000 s and
`accessExpiryTime` = 2 hours = 7,200 s. On the success path of `GetRefreshToken` the
tokens in the response are the ones signed with expiry `Unix now + 5184000` (refresh)
and `Unix now + 7200` (access), and they parse to claims with exactly these `ExpiresAt`.
Every access token issued by `getAccessToken` carries `Unix now + 7200`; hence for issue
times `t1 ≤ t2` the one issued at `t2` expires no earlier than the one issued at `t1`. -/
theorem C12_expiry_is_now_plus_ttl (E : Env) (a : authController) (r : Request) (s : World)
    (user : User) (refreshToken accessToken : String)
    (hE : E.Lawful) (hb : s.w.body = [])
    (hu : r.Var "username" ≠ "") (hp : r.HeaderGet "Password" ≠ "")
    (hget : (GetUser s (r.Var "username")).2 = .ok user)
    (hpw : E.CompareHashAndPassword user.Password (r.HeaderGet "Password") = none)
    (hr : E.SignedString a.jwtSecret
      ⟨Unix s.now + 5184000, RefreshTokenType, r.Var "username"⟩ = .ok refreshToken)
    (ha : E.SignedString a.jwtSecret
      ⟨Unix s.now + 7200, AccessTokenType, r.Var "username"⟩ = .ok accessToken) :
    (refreshExpiryTime = 5184000 * 1000000000 ∧ 5184000 = 60 * (24 * (60 * 60))) ∧
    (accessExpiryTime = 7200 * 1000000000 ∧ 7200 = 2 * (60 * 60)) ∧
    (∃ s', GetRefreshToken E a r s = .done s' ∧
      s'.w.body = [⟨"", some ⟨refreshToken, accessToken⟩, none⟩]) ∧
    E.ParseWithClaims a.jwtSecret (Unix s.now) refreshToken =
      (some ⟨some ⟨RefreshTokenType, r.Var "username", Unix s.now + 5184000⟩, true⟩, none) ∧
    E.ParseWithClaims a.jwtSecret (Unix s.now) accessToken =
      (some ⟨some ⟨AccessTokenType, r.Var "username", Unix s.now + 7200⟩, true⟩, none) ∧
    (∀ t1 t2 username tok1 tok2, t1 ≤ t2 →
      getAccessToken E a t1 username = .ok tok1 →
      getAccessToken E a t2 username = .ok tok2 →
      ∃ c1 c2,
        E.ParseWithClaims a.jwtSecret (Unix t1) tok1 = (some ⟨some c1, true⟩, none) ∧
        E.ParseWithClaims a.jwtSecret (Unix t2) tok2 = (some ⟨some c2, true⟩, none) ∧
        c1.ExpiresAt = Unix t1 + 7200 ∧ c2.ExpiresAt = Unix t2 + 7200 ∧
        c1.ExpiresAt ≤ c2.ExpiresAt) := by
  have hr2 : E.SignedString a.jwtSecret
      ⟨Unix (s.now + refreshExpiryTime), RefreshTokenType, r.Var "username"⟩ =
      .ok refreshToken := by
    rw [refreshExpiryTime_seconds, Unix_add_seconds]
    exact hr
  have ha2 : getAccessToken E a s.now (r.Var "username") = .ok accessToken := by
    rw [getAccessToken_exp]
    exact ha
  refine ⟨⟨refreshExpiryTime_seconds, by decide⟩, ⟨accessExpiryTime_seconds, by decide⟩,
    ?_, ?_, ?_, ?_⟩
  · refine ⟨_, GetRefreshToken_issue E a r s user refreshToken accessToken hu hp hget hpw
      hr2 ha2, ?_⟩
    rw [(finishIssue_spec _ _).1, SendSuccess_body]
    simp only [hb, List.nil_append]
  · exact hE.roundTrip _ _ _ (Unix s.now) hr (Nat.le_add_right _ _)
  · exact hE.roundTrip _ _ _ (Unix s.now) ha (Nat.le_add_right _ _)
  · intro t1 t2 username tok1 tok2 hle h1 h2
    rw [getAccessToken_exp] at h1 h2
    refine ⟨_, _, hE.roundTrip _ _ _ (Unix t1) h1 (Nat.le_add_right _ _),
      hE.roundTrip _ _ _ (Unix t2) h2 (Nat.le_add_right _ _), rfl, rfl, ?_⟩
    have hdiv : Unix t1 ≤ Unix t2 := Nat.div_le_div_right hle
    exact Nat.add_le_add_right hdiv 7200

/-- C12 at a concrete input: the tokens issued to `alice` at the time of `demoWorld`. -/
theorem C12_expiry_is_now_plus_ttl_witness :
    (∃ s', GetRefreshToken toyEnv demoController (authorizeRequest "alice" "wonderland")
        demoWorld = .done s' ∧
      s'.w.body = [⟨"", some
        ⟨toySigned "secret" ⟨Unix demoWorld.now + 5184000, "refresh", "alice"⟩,
         toySigned "secret" ⟨Unix demoWorld.now + 7200, "access", "alice"⟩⟩, none⟩]) ∧
    toyEnv.ParseWithClaims "secret" (Unix demoWorld.now)
        (toySigned "secret" ⟨Unix demoWorld.now + 5184000, "refresh", "alice"⟩) =
      (some ⟨some ⟨"refresh", "alice", Unix demoWorld.now + 5184000⟩, true⟩, none) ∧
    toyEnv.ParseWithClaims "secret" (Unix demoWorld.now)
        (toySigned "secret" ⟨Unix demoWorld.now + 7200, "access", "alice"⟩) =
      (some ⟨some ⟨"access", "alice", Unix demoWorld.now + 7200⟩, true⟩, none) :=
  let h := C12_expiry_is_now_plus_ttl toyEnv demoController
    (authorizeRequest "alice" "wonderland") demoWorld alice
    (toySigned "secret" ⟨Unix demoWorld.now + 5184000, "refresh", "alice"⟩)
    (toySigned "secret" ⟨Unix demoWorld.now + 7200, "access", "alice"⟩)
    toyEnv_lawful rfl (by decide) (by decide) rfl (by decide) rfl rfl
  ⟨h.2.2.1, h.2.2.2.1, h.2.2.2.2.1⟩

/-! ## C13 -/

/-- C13: the handler returned by `Wrapper` does not bind the token to the path identity.
For a bearer token that is correctly signed and unexpired (it parses to a valid token
with claims `c`) and of the expected kind, and a non-empty path username, the handler
hands over to `h`; nothing is asked of `c.Username`, so this holds whether or not it
equals the path username. More generally the result of `validateAccessToken` does not
depend on its `username` argument. -/
theorem C13_wrapper_ignores_token_owner (E : Env) (a : authController) (k : String)
    (h : handler) (r : Request) (s : World) (c : TokenClaims)
    (ht : bearerToken r ≠ "") (hu : r.Var "username" ≠ "")
    (hparse : E.ParseWithClaims a.jwtSecret (Unix s.now) (bearerToken r) =
      (some ⟨some c, true⟩, none))
    (hk : c.Type' = k) :
    Wrapper E a k h r s = h r s ∧
    (∀ now token u1 u2 kind,
      validateAccessToken E a now token u1 kind =
        validateAccessToken E a now token u2 kind) := by
  constructor
  · have hv := validateAccessToken_ok E a s.now (bearerToken r) (r.Var "username") k c
      hparse hk
    simp only [Wrapper, beq_iff_eq, ht, hu, if_false, hv]
  · intro now token u1 u2 kind
    rfl

/-- C13 at a concrete input: the access token of `alice` presented on the path of `bob`
reaches the inner handler, although the token's username is not the path username. -/
theorem C13_wrapper_ignores_token_owner_witness :
    ("alice" : String) ≠ "bob" ∧
    Wrapper toyEnv demoController "access" noContent
      (bearerRequest "bob" ("Bearer " ++
        toySigned "secret" ⟨Unix (demoWorld.now + accessExpiryTime), "access", "alice"⟩))
      demoWorld =
    noContent
      (bearerRequest "bob" ("Bearer " ++
        toySigned "secret" ⟨Unix (demoWorld.now + accessExpiryTime), "access", "alice"⟩))
      demoWorld :=
  ⟨by decide,
   (C13_wrapper_ignores_token_owner toyEnv demoController "access" noContent
      (bearerRequest "bob" ("Bearer " ++
        toySigned "secret" ⟨Unix (demoWorld.now + accessExpiryTime), "access", "alice"⟩))
      demoWorld ⟨"access", "alice", Unix (demoWorld.now + accessExpiryTime)⟩
      (by rw [bearerToken_bearerRequest]; exact toySigned_ne_empty _ _)
      (by rw [Var_bearerRequest]; decide)
      (by rw [bearerToken_bearerRequest]; exact toyParse_toySigned _ _ _ (by decide))
      rfl).1⟩

end RssCreator
